import Mathlib

set_option maxRecDepth 100000
set_option maxHeartbeats 2000000

/- The Batteries rational-number operations are `@[irreducible]`, which
blocks `decide` on concrete rational computations; re-allow unfolding for
this file (the kernel re-checks every proof independently of reducibility
attributes). -/
set_option allowUnsafeReducibility true
attribute [local semireducible] Rat.add Rat.mul Rat.inv Rat.sub Rat.ofScientific

/-!
Verification development for the bitcoin trading-signal repository.

The code under verification computes technical indicators over OHLCV bars
(pandas float columns), scores BUY/SELL conditions, rate-limits signal
emission, and backtests the signal stream.  The embedding below models
pandas float columns as `FVal` (an exact rational plus the IEEE special
values `+inf`, `-inf`, `NaN` produced by the zero-denominator divisions the
code performs); arithmetic is exact rational arithmetic, which matches the
source everywhere a claim depends only on comparisons and on the
special-value cases.  Raw OHLCV columns, capital, and prices are plain `ℚ`.
-/

/-- Model of a pandas float cell: a finite value or one of the IEEE special
values.  `nan` is the result of `0/0`; `pinf`/`ninf` of `x/0` for positive
and negative `x`.  Comparisons against `nan` are `false`, as in NumPy. -/
inductive FVal where
  | num (q : ℚ)
  | pinf
  | ninf
  | nan
deriving DecidableEq, Repr, Inhabited

namespace FVal

def fneg : FVal → FVal
  | num q => num (-q)
  | pinf => ninf
  | ninf => pinf
  | nan => nan

def fadd : FVal → FVal → FVal
  | num a, num b => num (a + b)
  | num _, pinf => pinf
  | pinf, num _ => pinf
  | pinf, pinf => pinf
  | num _, ninf => ninf
  | ninf, num _ => ninf
  | ninf, ninf => ninf
  | pinf, ninf => nan
  | ninf, pinf => nan
  | nan, _ => nan
  | _, nan => nan

def fsub (a b : FVal) : FVal := fadd a (fneg b)

def fmul : FVal → FVal → FVal
  | num a, num b => num (a * b)
  | num a, pinf => if a = 0 then nan else if 0 < a then pinf else ninf
  | pinf, num a => if a = 0 then nan else if 0 < a then pinf else ninf
  | num a, ninf => if a = 0 then nan else if 0 < a then ninf else pinf
  | ninf, num a => if a = 0 then nan else if 0 < a then ninf else pinf
  | pinf, pinf => pinf
  | pinf, ninf => ninf
  | ninf, pinf => ninf
  | ninf, ninf => pinf
  | nan, _ => nan
  | _, nan => nan

def fdiv : FVal → FVal → FVal
  | num a, num b =>
      if b = 0 then (if a = 0 then nan else if 0 < a then pinf else ninf)
      else num (a / b)
  | num _, pinf => num 0
  | num _, ninf => num 0
  | pinf, num b => if 0 ≤ b then pinf else ninf
  | ninf, num b => if 0 ≤ b then ninf else pinf
  | pinf, pinf => nan
  | pinf, ninf => nan
  | ninf, pinf => nan
  | ninf, ninf => nan
  | nan, _ => nan
  | _, nan => nan

def fabs : FVal → FVal
  | num a => num |a|
  | pinf => pinf
  | ninf => pinf
  | nan => nan

/-- IEEE strict less-than: any comparison involving `nan` is `false`. -/
def flt : FVal → FVal → Bool
  | num a, num b => decide (a < b)
  | num _, pinf => true
  | ninf, num _ => true
  | ninf, pinf => true
  | _, _ => false

/-- IEEE less-or-equal: any comparison involving `nan` is `false`. -/
def fle : FVal → FVal → Bool
  | num a, num b => decide (a ≤ b)
  | num _, pinf => true
  | ninf, num _ => true
  | ninf, pinf => true
  | pinf, pinf => true
  | ninf, ninf => true
  | _, _ => false

end FVal

open FVal

/-- Sum of a float column slice; `nan` propagates, as in a pandas rolling
window that contains a missing value. -/
def sumF (xs : List FVal) : FVal := xs.foldr fadd (num 0)

/-- Trailing `k` elements of a list (`xs[-k:]`, and the content of the last
window of `xs.rolling(k)`). -/
def lastK (k : ℕ) (xs : List α) : List α := xs.drop (xs.length - k)

/-- Element `xs.iloc[-k]` of a column, with a default for the out-of-range
case the source would crash on. -/
def ilocNeg [Inhabited α] (xs : List α) (k : ℕ) : α := xs.getD (xs.length - k) default

/-- Mean of a rational list (`Series.mean` on a complete window). -/
def meanQ (xs : List ℚ) : ℚ := xs.sum / xs.length

/-- Last value of `Series.rolling(k).mean()` for a float column: `nan` when
fewer than `k` observations exist or the window holds a `nan`. -/
def rollingMeanF (k : ℕ) (xs : List FVal) : FVal :=
  if xs.length < k then nan else fdiv (sumF (lastK k xs)) (num k)

/-- Last value of `Series.rolling(k).mean()` for a raw (never-nan) column. -/
def rollingMeanQF (k : ℕ) (xs : List ℚ) : FVal :=
  if xs.length < k then nan else num (meanQ (lastK k xs))

/-- Last value of `Series.rolling(k).min()` on a raw column. -/
def rollingMinLast (k : ℕ) (xs : List ℚ) : FVal :=
  if xs.length < k then nan
  else
    match lastK k xs with
    | [] => nan
    | h :: t => num (t.foldl min h)

/-- Last value of `Series.rolling(k).max()` on a raw column. -/
def rollingMaxLast (k : ℕ) (xs : List ℚ) : FVal :=
  if xs.length < k then nan
  else
    match lastK k xs with
    | [] => nan
    | h :: t => num (t.foldl max h)

/-- The whole aligned series `Series.rolling(k).min()`. -/
def rollingMinSeries (k : ℕ) (xs : List ℚ) : List FVal :=
  (List.range xs.length).map (fun i => rollingMinLast k (xs.take (i + 1)))

/-- The whole aligned series `Series.rolling(k).max()`. -/
def rollingMaxSeries (k : ℕ) (xs : List ℚ) : List FVal :=
  (List.range xs.length).map (fun i => rollingMaxLast k (xs.take (i + 1)))

/-- `Series.unique()`: first occurrence of each distinct value, in order of
appearance (pandas collapses the NaNs of a float column to one entry, which
structural equality on `FVal` reproduces). -/
def dedupAux : ℕ → List FVal → List FVal
  | 0, _ => []
  | _, [] => []
  | fuel + 1, x :: xs => x :: dedupAux fuel (xs.filter (· ≠ x))

def dedupFirst (xs : List FVal) : List FVal := dedupAux xs.length xs

/-- Sample variance (`ddof=1`, the pandas `rolling.std` default) of a
window. -/
def sampleVar (xs : List ℚ) : ℚ :=
  (xs.map (fun x => (x - meanQ xs) ^ 2)).sum / (xs.length - 1 : ℕ)

/-- Raw input bar (one row of the OHLCV frame). -/
structure Bar where
  opn : ℚ
  high : ℚ
  low : ℚ
  close : ℚ
  volume : ℚ
deriving DecidableEq, Repr, Inhabited

/-- One row of the indicator-augmented frame produced by
`TechnicalIndicators.add_all_indicators`: the raw OHLCV fields plus every
indicator column that the signal generators and the backtester read. -/
structure Row where
  opn : ℚ
  high : ℚ
  low : ℚ
  close : ℚ
  volume : ℚ
  rsi : FVal
  bb_lower : FVal
  bb_upper : FVal
  macd : FVal
  macd_signal : FVal
  stoch_k : FVal
  stoch_d : FVal
  atr : FVal
  ichimoku_span_a : FVal
deriving DecidableEq, Repr, Inhabited

/-! ### Indicator engine (`indicators.py`)

Each `...At` function gives the value of the indicator column at row `i`,
computed from the prefix of the raw series up to `i` — the alignment pandas
produces for rolling windows, `ewm`, and forward `shift`. -/

/-- `data['close'].diff()`: first entry missing, then consecutive
differences. -/
def deltas (closes : List ℚ) : List FVal :=
  match closes with
  | [] => []
  | _ :: t => nan :: List.zipWith (fun a b => num (a - b)) t closes.dropLast

/-- `delta.where(delta > 0, 0)`: the positive deltas, with the leading `nan`
replaced by `0` (a `nan` comparison is `false`, so `where` substitutes). -/
def gainsOf (closes : List ℚ) : List FVal :=
  (deltas closes).map (fun d => if flt (num 0) d then d else num 0)

/-- `-delta.where(delta < 0, 0)`: the negated negative deltas. -/
def lossesOf (closes : List ℚ) : List FVal :=
  (deltas closes).map (fun d => if flt d (num 0) then fneg d else num 0)

/-- `TechnicalIndicators.calculate_rsi` at the last bar of `closes`:
`100 - 100/(1 + avg_gain/avg_loss)` with simple rolling means of the
positive and negative deltas.  The zero-denominator cases follow the
floating-point semantics of the source: `avg_loss = 0` with positive
`avg_gain` gives `rs = +inf` hence RSI `100`; a fully flat window gives
`rs = 0/0 = NaN` hence RSI `NaN`. -/
def calculate_rsi (period : ℕ) (closes : List ℚ) : FVal :=
  let avg_gain := rollingMeanF period (gainsOf closes)
  let avg_loss := rollingMeanF period (lossesOf closes)
  let rs := fdiv avg_gain avg_loss
  fsub (num 100) (fdiv (num 100) (fadd (num 1) rs))

def rsiAt (closes : List ℚ) (i : ℕ) : FVal := calculate_rsi 14 (closes.take (i + 1))

/-- Last value of `Series.ewm(span, adjust=False).mean()`: recursive
exponential smoothing seeded by the first element, smoothing factor
`2/(span+1)`.  Junk `0` on an empty series (the callers guard). -/
def emaLastQ (span : ℕ) (xs : List ℚ) : ℚ :=
  match xs with
  | [] => 0
  | h :: t => t.foldl (fun y x => y + (2 / (span + 1 : ℚ)) * (x - y)) h

/-- MACD line at row `i` (`fast_ema - slow_ema`, spans 12/26).  A plain
rational: `ewm` is defined from the first row, so the column has no NaN. -/
def macdAtQ (closes : List ℚ) (i : ℕ) : ℚ :=
  emaLastQ 12 (closes.take (i + 1)) - emaLastQ 26 (closes.take (i + 1))

/-- MACD signal line at row `i`: span-9 `ewm` of the MACD column. -/
def signalAtQ (closes : List ℚ) (i : ℕ) : ℚ :=
  emaLastQ 9 ((List.range (i + 1)).map (macdAtQ closes))

/-- Bollinger middle band at row `i` (20-bar SMA of close). -/
def bbMiddleAt (closes : List ℚ) (i : ℕ) : FVal :=
  rollingMeanQF 20 (closes.take (i + 1))

/-- Lower Bollinger band at row `i`: `middle - 2 * rolling_std`.  The square
root has no exact rational form, so the embedding takes the square-root
routine as a parameter `sqrtP`; every theorem that touches the bands only
ever needs `sqrtP 0 = 0`, which any square root satisfies. -/
def bbLowerAt (sqrtP : ℚ → ℚ) (closes : List ℚ) (i : ℕ) : FVal :=
  let pre := closes.take (i + 1)
  if pre.length < 20 then nan
  else
    let w := lastK 20 pre
    num (meanQ w - 2 * sqrtP (sampleVar w))

/-- Upper Bollinger band at row `i`: `middle + 2 * rolling_std`. -/
def bbUpperAt (sqrtP : ℚ → ℚ) (closes : List ℚ) (i : ℕ) : FVal :=
  let pre := closes.take (i + 1)
  if pre.length < 20 then nan
  else
    let w := lastK 20 pre
    num (meanQ w + 2 * sqrtP (sampleVar w))

/-- Stochastic `%K` at row `i`:
`100 * (close - rolling_min(low,14)) / (rolling_max(high,14) - rolling_min(low,14))`;
a flat 14-bar range divides `0/0` into `NaN`. -/
def stochKAt (lows highs closes : List ℚ) (i : ℕ) : FVal :=
  let low_min := rollingMinLast 14 (lows.take (i + 1))
  let high_max := rollingMaxLast 14 (highs.take (i + 1))
  fmul (num 100) (fdiv (fsub (num (closes.getD i 0)) low_min) (fsub high_max low_min))

/-- Stochastic `%D` at row `i`: 3-bar SMA of the `%K` column. -/
def stochDAt (lows highs closes : List ℚ) (i : ℕ) : FVal :=
  rollingMeanF 3 ((List.range (i + 1)).map (stochKAt lows highs closes))

/-- True range of bar `i` (`max(high-low, |high-prev_close|, |low-prev_close|)`;
the first bar has no previous close and the row-wise `max` skips the NaN). -/
def trAt (bars : List Bar) (i : ℕ) : ℚ :=
  let b := bars.getD i default
  match i with
  | 0 => b.high - b.low
  | j + 1 =>
      let pc := (bars.getD j default).close
      max (b.high - b.low) (max |b.high - pc| |b.low - pc|)

/-- ATR at row `i`: 14-bar rolling mean of the true range. -/
def atrAt (bars : List Bar) (i : ℕ) : FVal :=
  rollingMeanF 14 ((List.range (i + 1)).map (fun j => num (trAt bars j)))

/-- Ichimoku conversion line at row `i` (9-bar high/low midpoint). -/
def convAt (bars : List Bar) (i : ℕ) : FVal :=
  fdiv (fadd (rollingMaxLast 9 ((bars.map Bar.high).take (i + 1)))
             (rollingMinLast 9 ((bars.map Bar.low).take (i + 1)))) (num 2)

/-- Ichimoku base line at row `i` (26-bar high/low midpoint). -/
def baseAt (bars : List Bar) (i : ℕ) : FVal :=
  fdiv (fadd (rollingMaxLast 26 ((bars.map Bar.high).take (i + 1)))
             (rollingMinLast 26 ((bars.map Bar.low).take (i + 1)))) (num 2)

/-- Ichimoku leading span A at row `i`: `((conversion+base)/2).shift(26)`. -/
def spanAAt (bars : List Bar) (i : ℕ) : FVal :=
  if i < 26 then nan
  else fdiv (fadd (convAt bars (i - 26)) (baseAt bars (i - 26))) (num 2)

/-- Row `i` of the indicator-augmented frame. -/
def augmentAt (sqrtP : ℚ → ℚ) (bars : List Bar) (i : ℕ) : Row :=
  let b := bars.getD i default
  let closes := bars.map Bar.close
  { opn := b.opn
    high := b.high
    low := b.low
    close := b.close
    volume := b.volume
    rsi := rsiAt closes i
    bb_lower := bbLowerAt sqrtP closes i
    bb_upper := bbUpperAt sqrtP closes i
    macd := num (macdAtQ closes i)
    macd_signal := num (signalAtQ closes i)
    stoch_k := stochKAt (bars.map Bar.low) (bars.map Bar.high) closes i
    stoch_d := stochDAt (bars.map Bar.low) (bars.map Bar.high) closes i
    atr := atrAt bars i
    ichimoku_span_a := spanAAt bars i }

/-- `TechnicalIndicators.add_all_indicators`, restricted to the columns any
modelled consumer reads. -/
def addAllIndicators (sqrtP : ℚ → ℚ) (bars : List Bar) : List Row :=
  (List.range bars.length).map (augmentAt sqrtP bars)

/-! ### Basic 5-condition scorer (`signal_generator.py`) -/

inductive SigType where
  | buy
  | sell
deriving DecidableEq, Repr, Inhabited

/-- `SignalGenerator._calculate_buy_score`: one point per satisfied BUY
condition, over the window's last two rows and the 10-bar rolling mean of
volume. -/
def buyScore (data : List Row) : ℕ :=
  let latest := ilocNeg data 1
  let previous := ilocNeg data 2
  (if flt latest.rsi (num 40) && flt previous.rsi latest.rsi then 1 else 0)
  + (if fle (num latest.close) (fmul latest.bb_lower (num (101 / 100))) then 1 else 0)
  + (if flt previous.macd latest.macd then 1 else 0)
  + (if flt latest.stoch_k (num 30) && flt previous.stoch_k latest.stoch_k then 1 else 0)
  + (if flt (fmul (rollingMeanQF 10 (data.map Row.volume)) (num (6 / 5))) (num latest.volume)
     then 1 else 0)

/-- `SignalGenerator._calculate_sell_score`. -/
def sellScore (data : List Row) : ℕ :=
  let latest := ilocNeg data 1
  let previous := ilocNeg data 2
  (if flt (num 60) latest.rsi && flt latest.rsi previous.rsi then 1 else 0)
  + (if fle (fmul latest.bb_upper (num (99 / 100))) (num latest.close) then 1 else 0)
  + (if flt latest.macd previous.macd then 1 else 0)
  + (if flt (num 70) latest.stoch_k && flt latest.stoch_k previous.stoch_k then 1 else 0)
  + (if flt (fmul (rollingMeanQF 10 (data.map Row.volume)) (num (6 / 5))) (num latest.volume)
     then 1 else 0)

/-- The emission decision of `SignalGenerator.generate_signal` once the
daily-cap and time-window gates have passed: BUY when `buy_score >= 2` and
strictly above the sell score, SELL symmetrically, otherwise no signal. -/
def signalDecision (data : List Row) : Option SigType :=
  let b := buyScore data
  let s := sellScore data
  if 2 ≤ b ∧ s < b then some .buy
  else if 2 ≤ s ∧ b < s then some .sell
  else none

/-! ### Primary-condition signal checks and the backtester
(`signal_generator.py` lines 58-174, `final_delivery/updated_backtester.py`) -/

inductive Strength where
  | strong
  | moderate
deriving DecidableEq, Repr, Inhabited

/-- Fibonacci retracement levels of the window
(`TechnicalIndicators.calculate_fibonacci_retracement`, window 100): the 7
standard interpolation points between the 100-bar rolling low and high. -/
def fibLevels (data : List Row) : List FVal :=
  let high := rollingMaxLast 100 (data.map Row.high)
  let low := rollingMinLast 100 (data.map Row.low)
  let diff := fsub high low
  [ low,
    fadd low (fmul (num (236 / 1000)) diff),
    fadd low (fmul (num (382 / 1000)) diff),
    fadd low (fmul (num (5 / 10)) diff),
    fadd low (fmul (num (618 / 1000)) diff),
    fadd low (fmul (num (786 / 1000)) diff),
    high ]

/-- `SignalGenerator.check_buy_signal`: all four primary conditions must
hold; the strength is `Strong` when at least two of the three secondary
confirmations hold, else `Moderate`. -/
def check_buy_signal (data : List Row) : Bool × Option Strength :=
  let latest := ilocNeg data 1
  let previous := ilocNeg data 2
  let rsi_condition := flt previous.rsi (num 30) && flt (num 30) latest.rsi
  let bb_condition := fle (num latest.close) latest.bb_lower
  let macd_condition := flt previous.macd previous.macd_signal && flt latest.macd_signal latest.macd
  let stoch_condition := flt previous.stoch_k previous.stoch_d && flt latest.stoch_d latest.stoch_k
      && flt latest.stoch_k (num 20) && flt latest.stoch_d (num 20)
  let volume_increasing := flt (rollingMeanQF 5 (data.map Row.volume)) (num latest.volume)
  let ichimoku_condition := flt latest.ichimoku_span_a (num latest.close)
      || (flt (num previous.close) previous.ichimoku_span_a && flt latest.ichimoku_span_a (num latest.close))
  let fib_condition := (fibLevels data).any (fun lv =>
      flt (fdiv (fabs (fsub (num latest.close) lv)) (num latest.close)) (num (1 / 100)))
  let primary := rsi_condition && bb_condition && macd_condition && stoch_condition
  let secondary_count := [volume_increasing, ichimoku_condition, fib_condition].countP id
  if primary && decide (2 ≤ secondary_count) then (true, some .strong)
  else if primary then (true, some .moderate)
  else (false, none)

/-- `SignalGenerator.check_sell_signal`. -/
def check_sell_signal (data : List Row) : Bool × Option Strength :=
  let latest := ilocNeg data 1
  let previous := ilocNeg data 2
  let rsi_condition := flt (num 70) previous.rsi && flt latest.rsi (num 70)
  let bb_condition := fle latest.bb_upper (num latest.close)
  let macd_condition := flt previous.macd_signal previous.macd && flt latest.macd latest.macd_signal
  let stoch_condition := flt previous.stoch_d previous.stoch_k && flt latest.stoch_k latest.stoch_d
      && flt (num 80) latest.stoch_k && flt (num 80) latest.stoch_d
  let volume_increasing := flt (rollingMeanQF 5 (data.map Row.volume)) (num latest.volume)
  let ichimoku_condition := flt (num latest.close) latest.ichimoku_span_a
      || (flt previous.ichimoku_span_a (num previous.close) && flt (num latest.close) latest.ichimoku_span_a)
  let fib_condition := (fibLevels data).any (fun lv =>
      flt (fdiv (fabs (fsub (num latest.close) lv)) (num latest.close)) (num (1 / 100)))
  let primary := rsi_condition && bb_condition && macd_condition && stoch_condition
  let secondary_count := [volume_increasing, ichimoku_condition, fib_condition].countP id
  if primary && decide (2 ≤ secondary_count) then (true, some .strong)
  else if primary then (true, some .moderate)
  else (false, none)

/-- Risk parameters of `SignalGenerator.calculate_risk_management`:
stop-loss at close minus-or-plus `1.5*ATR`, position-size fraction 2% (Strong) or
1.5% (otherwise), primary target at close times one plus-or-minus 1%. -/
structure RiskParams where
  stop_loss : FVal
  position_size : ℚ
  primary_target : ℚ
  signal_strength : Option Strength
deriving DecidableEq, Repr, Inhabited

def calculate_risk_management (data : List Row) (signal_type : SigType) : RiskParams :=
  let latest := ilocNeg data 1
  let technical_stop :=
    match signal_type with
    | .buy => fsub (num latest.close) (fmul (num (3 / 2)) latest.atr)
    | .sell => fadd (num latest.close) (fmul (num (3 / 2)) latest.atr)
  let strength :=
    match signal_type with
    | .buy => (check_buy_signal data).2
    | .sell => (check_sell_signal data).2
  let position_size : ℚ := if strength = some .strong then 2 / 100 else (2 / 100) * (3 / 4)
  let primary_target := latest.close * (if signal_type = .buy then 101 / 100 else 99 / 100)
  { stop_loss := technical_stop, position_size := position_size,
    primary_target := primary_target, signal_strength := strength }

/-! Timestamps in the backtester are minutes since an epoch; `dateOf` and
`hourOf` are the `timestamp.date()` and `timestamp.hour` projections, and
the 1-minute holding period of the source is one unit of time. -/

def dateOf (t : ℤ) : ℤ := t / 1440

def hourOf (t : ℤ) : ℤ := (t % 1440) / 60

/-- The backtester's six signal-generation windows.  The source tests
`start <= hour < end or (start == 22 and (hour >= 22 or hour < 0))`; the
`hour < 0` disjunct is vacuous and is dropped. -/
def btWindows : List (ℤ × ℤ) := [(0, 2), (4, 6), (8, 10), (14, 16), (18, 20), (22, 0)]

def inBtWindow (h : ℤ) : Bool :=
  btWindows.any (fun se => (decide (se.1 ≤ h) && decide (h < se.2)) || (decide (se.1 = 22) && decide (22 ≤ h)))

/-- An open simulated position of the backtester. -/
structure Position where
  type : SigType
  entry_time : ℤ
  entry_price : ℚ
  size : ℚ
  stop_loss : FVal
  target : ℚ
  strength : Option Strength
deriving DecidableEq, Repr, Inhabited

/-- A completed trade record. -/
structure Trade where
  type : SigType
  entry_time : ℤ
  entry_price : ℚ
  exit_time : ℤ
  exit_price : ℚ
  size : ℚ
  pnl : ℚ
  pnl_percent : ℚ
  strength : Option Strength
deriving DecidableEq, Repr, Inhabited

/-- One row of the backtester's `results` list. -/
structure ResultRow where
  timestamp : ℤ
  close : ℚ
  capital : ℚ
  position : Option SigType
deriving DecidableEq, Repr, Inhabited

/-- The mutable loop state of `Backtester.run_backtest`. -/
structure BTState where
  capital : ℚ
  position : Option Position
  trades : List Trade
  results : List ResultRow
  currentDate : Option ℤ
  dailyCount : ℕ
deriving DecidableEq, Repr, Inhabited

/-- Daily-rollover bookkeeping at the top of the loop body. -/
def btDailyReset (st : BTState) (t : ℤ) : BTState :=
  if st.currentDate = some (dateOf t) then st
  else { st with currentDate := some (dateOf t), dailyCount := 0 }

/-- The signal/close branch of the loop body, reached only on evaluated
bars (inside a window, below the daily cap). -/
def btTrade (w : List Row) (t : ℤ) (r : Row) (st : BTState) : BTState :=
  let bs := check_buy_signal w
  let ss := check_sell_signal w
  match st.position with
  | none =>
      if bs.1 && (!ss.1 || decide (bs.2 = some .strong)) then
        let rp := calculate_risk_management w .buy
        let p : Position :=
          { type := .buy, entry_time := t, entry_price := r.close,
            size := st.capital * rp.position_size, stop_loss := rp.stop_loss,
            target := rp.primary_target, strength := rp.signal_strength }
        { st with position := some p, dailyCount := st.dailyCount + 1 }
      else if ss.1 && (!bs.1 || decide (ss.2 = some .strong)) then
        let rp := calculate_risk_management w .sell
        let p : Position :=
          { type := .sell, entry_time := t, entry_price := r.close,
            size := st.capital * rp.position_size, stop_loss := rp.stop_loss,
            target := rp.primary_target, strength := rp.signal_strength }
        { st with position := some p, dailyCount := st.dailyCount + 1 }
      else st
  | some p =>
      if p.entry_time + 1 ≤ t then
        let exit_price := r.close
        let pnl :=
          match p.type with
          | .buy => (exit_price - p.entry_price) / p.entry_price * p.size
          | .sell => (p.entry_price - exit_price) / p.entry_price * p.size
        { st with
          capital := st.capital + pnl,
          trades := st.trades ++
            [{ type := p.type, entry_time := p.entry_time, entry_price := p.entry_price,
               exit_time := t, exit_price := exit_price, size := p.size, pnl := pnl,
               pnl_percent := pnl / p.size * 100, strength := p.strength }],
          position := none }
      else st

/-- One iteration of the backtest loop at index `i` of the augmented series
`rows` (timestamp paired with the indicator row).  Bars outside the
configured windows or past the daily cap are skipped by `continue` before
anything else happens — including before the results snapshot. -/
def btStep (rows : List (ℤ × Row)) (i : ℕ) (st : BTState) : BTState :=
  let tr := rows.getD i default
  let t := tr.1
  let r := tr.2
  let st1 := btDailyReset st t
  if !inBtWindow (hourOf t) || decide (6 ≤ st1.dailyCount) then st1
  else
    let w := ((rows.take (i + 1)).drop (i - 100)).map Prod.snd
    let st2 := btTrade w t r st1
    { st2 with results := st2.results ++
        [{ timestamp := t, close := r.close, capital := st2.capital,
           position := st2.position.map Position.type }] }

/-- The bar loop of `run_backtest`: repeatedly apply `btStep` for indices
`i, i+1, ...` while they stay inside the series; the first argument is the
number of remaining iterations (structural fuel, supplied as the exact
remaining bar count by `runBacktest`). -/
def btLoop (rows : List (ℤ × Row)) : ℕ → ℕ → BTState → BTState
  | 0, _, st => st
  | fuel + 1, i, st =>
      if i < rows.length then btLoop rows fuel (i + 1) (btStep rows i st) else st

/-- `Backtester.run_backtest` on an already indicator-augmented series:
process every bar after the 100-bar warmup, starting flat with the given
capital.  Nothing runs after the loop that would close an open position. -/
def runBacktest (rows : List (ℤ × Row)) (initial_capital : ℚ) : BTState :=
  btLoop rows (rows.length - 100) 100
    { capital := initial_capital, position := none, trades := [], results := [],
      currentDate := none, dailyCount := 0 }

/-- Concrete two-row window on which the C1 theorem is instantiated: the
BUY conditions 1, 2 and 3 hold, no SELL condition holds. -/
def c1Row0 : Row :=
  { opn := 100, high := 102, low := 99, close := 100, volume := 100,
    rsi := num 20, bb_lower := num 100, bb_upper := num 200,
    macd := num 0, macd_signal := num 0,
    stoch_k := num 50, stoch_d := num 50, atr := num 1, ichimoku_span_a := num 100 }

def c1Row1 : Row :=
  { opn := 100, high := 102, low := 99, close := 100, volume := 100,
    rsi := num 30, bb_lower := num 100, bb_upper := num 200,
    macd := num 1, macd_signal := num 0,
    stoch_k := num 50, stoch_d := num 50, atr := num 1, ichimoku_span_a := num 100 }

/-! ### Concrete backtest runs used to instantiate and refute claims -/

/-- Warmup row of the demonstration series: primed so that the next row
completes every primary BUY condition of `check_buy_signal`. -/
def btWarmRow : Row :=
  { opn := 100, high := 102, low := 99, close := 100, volume := 100,
    rsi := num 25, bb_lower := num 100, bb_upper := num 200,
    macd := num (-1), macd_signal := num 0,
    stoch_k := num 5, stoch_d := num 10, atr := num 1, ichimoku_span_a := num 90 }

/-- Signal row: together with `btWarmRow` as predecessor it satisfies all
four primary BUY conditions, so the backtester opens a BUY position. -/
def btSigRow : Row :=
  { opn := 100, high := 102, low := 99, close := 100, volume := 100,
    rsi := num 35, bb_lower := num 100, bb_upper := num 200,
    macd := num 1, macd_signal := num 0,
    stoch_k := num 15, stoch_d := num 12, atr := num 1, ichimoku_span_a := num 90 }

/-- 102-bar augmented series: a BUY position opens at bar 100 (minute 100,
hour 1, inside the `(0,2)` window); bar 101 sits at minute 125 (hour 2,
outside every window) although the position is already expired there. -/
def btDemoRows : List (ℤ × Row) :=
  ((List.range 100).map (fun j => ((j : ℤ), btWarmRow))) ++ [(100, btSigRow), (125, btSigRow)]

/-- Variant of `btDemoRows` whose final bar (minute 240, hour 4) lies inside
a window, so the expired position does get closed there. -/
def btDemoRows2 : List (ℤ × Row) :=
  ((List.range 100).map (fun j => ((j : ℤ), btWarmRow))) ++ [(100, btSigRow), (240, btSigRow)]

def btInitState : BTState :=
  { capital := 10000, position := none, trades := [], results := [],
    currentDate := none, dailyCount := 0 }

/-- State after the bar-100 step of `btDemoRows` (BUY position just
opened). -/
def btDemoMid1 : BTState := btStep btDemoRows 100 btInitState

/-- State after the bar-100 step of `btDemoRows2`. -/
def btDemoMid2 : BTState := btStep btDemoRows2 100 btInitState

/-- The position the demonstration backtest opens at bar 100. -/
def btDemoPos : Position :=
  { type := .buy, entry_time := 100, entry_price := 100, size := 200,
    stop_loss := num (197 / 2), target := 101, strength := some Strength.strong }

/-- Loop invariant for the backtest: every recorded trade exited before
every still-unprocessed bar, and before the entry of the currently open
position. -/
def BtInv (rows : List (ℤ × Row)) (i : ℕ) (st : BTState) : Prop :=
  (∀ tr ∈ st.trades, ∀ j, i ≤ j → j < rows.length → tr.exit_time < (rows.getD j default).1)
  ∧ (∀ p, st.position = some p → ∀ tr ∈ st.trades, tr.exit_time < p.entry_time)

/-- Executable strict-monotonicity check for a timestamp column. -/
def strictTimes : List ℤ → Bool
  | [] => true
  | [_] => true
  | a :: b :: rest => decide (a < b) && strictTimes (b :: rest)

/-! ### Basic generator gating (`signal_generator.py` lines 224-242) -/

/-- The basic generator's UTC-hour windows (early morning, extended
evening, late night split across midnight). -/
def genWindows : List (ℕ × ℕ) := [(3, 12), (15, 20), (22, 24), (0, 3)]

def inGenWindow (h : ℕ) : Bool :=
  genWindows.any (fun se => decide (se.1 ≤ h) && decide (h < se.2))

/-- The daily-cap state of `SignalGenerator`. -/
structure GenState where
  daily_signal_count : ℕ
  last_signal_date : Option ℤ
deriving DecidableEq, Repr, Inhabited

/-- One call of `SignalGenerator.generate_signal` on an already augmented
window: lazy daily reset, cap of 6, hour-window gate, then the scoring
decision; an emission increments the daily count. -/
def genStep (st : GenState) (d : ℤ) (h : ℕ) (w : List Row) : GenState × Option SigType :=
  let st := if st.last_signal_date = some d then st else ⟨0, some d⟩
  if 6 ≤ st.daily_signal_count then (st, none)
  else if !inGenWindow h then (st, none)
  else
    match signalDecision w with
    | some dir => (⟨st.daily_signal_count + 1, st.last_signal_date⟩, some dir)
    | none => (st, none)

/-- A sequence of generator calls, each with its date, UTC hour and data
window. -/
def genRun (st : GenState) : List (ℤ × ℕ × List Row) → GenState × List (Option SigType)
  | [] => (st, [])
  | c :: cs =>
      let r := genStep st c.1 c.2.1 c.2.2
      let rest := genRun r.1 cs
      (rest.1, r.2 :: rest.2)

def countEmits (outs : List (Option SigType)) : ℕ := outs.countP (fun o => o.isSome)

/-! ### Scalping rule set (`scalping_signal_generator.py` lines 54-229) -/

/-- `ScalpingSignalGenerator.check_scalping_conditions_buy`: a window
shorter than 100 bars returns the plain no-signal triple; otherwise each of
the 7 conditions scores one point and a signal needs at least 4.  The
condition strings are modelled as fixed tags (the source interpolates the
support level into its message). -/
def checkScalpingBuy (data : List Row) : Bool × ℕ × List String :=
  if data.length < 100 then (false, 0, [])
  else
    let latest := ilocNeg data 1
    let rsi_reversal := flt latest.rsi (num 35)
        && flt (num (1 / 2)) (fdiv (fsub latest.rsi (ilocNeg data 3).rsi) (num 2))
    let bb_width := fsub latest.bb_upper latest.bb_lower
    let avg_bb_width := rollingMeanF 20 (data.map (fun r => fsub r.bb_upper r.bb_lower))
    let bb_squeeze := flt bb_width (fmul avg_bb_width (num (7 / 10)))
        && fle (num latest.close) (fmul latest.bb_lower (num (1002 / 1000)))
        && flt (num (ilocNeg data 2).close) (ilocNeg data 2).bb_lower
        && decide ((ilocNeg data 2).close < latest.close)
    let volume_spike :=
        flt (fmul (rollingMeanQF 20 (data.map Row.volume)) (num (3 / 2))) (num latest.volume)
        && decide ((ilocNeg data 3).close < latest.close)
    let macd_histogram := fsub latest.macd latest.macd_signal
    let prev_histogram := fsub (ilocNeg data 2).macd (ilocNeg data 2).macd_signal
    let macd_shift := flt prev_histogram macd_histogram && flt prev_histogram (num 0)
        && flt (fabs macd_histogram) (fabs prev_histogram)
    let support_levels := lastK 3 (dedupFirst (rollingMinSeries 10 (data.map Row.low)))
    let support_bounce := support_levels.any (fun sp =>
        flt (fdiv (fabs (fsub (num latest.low) sp)) sp) (num (2 / 1000))
        && decide (latest.opn < latest.close))
    let stoch_reversal := flt latest.stoch_k (num 20) && flt latest.stoch_d (num 20)
        && flt latest.stoch_d latest.stoch_k
        && fle (ilocNeg data 2).stoch_k (ilocNeg data 2).stoch_d
    let body := |latest.close - latest.opn|
    let lower_wick :=
        if latest.opn < latest.close then latest.opn - latest.low else latest.close - latest.low
    let price_pattern := decide (body * 2 < lower_wick) && decide (latest.opn < latest.close)
    let conds := [rsi_reversal, bb_squeeze, volume_spike, macd_shift, support_bounce,
      stoch_reversal, price_pattern]
    let score := conds.countP id
    (decide (4 ≤ score), score,
      (if rsi_reversal then ["RSI reversal from oversold"] else [])
      ++ (if bb_squeeze then ["Bollinger Band squeeze bounce"] else [])
      ++ (if volume_spike then ["Volume spike with price support"] else [])
      ++ (if macd_shift then ["MACD momentum shift"] else [])
      ++ (if support_bounce then ["Support bounce"] else [])
      ++ (if stoch_reversal then ["Stochastic oversold crossover"] else [])
      ++ (if price_pattern then ["Bullish hammer pattern"] else []))

/-- `ScalpingSignalGenerator.check_scalping_conditions_sell`. -/
def checkScalpingSell (data : List Row) : Bool × ℕ × List String :=
  if data.length < 100 then (false, 0, [])
  else
    let latest := ilocNeg data 1
    let rsi_exhaustion := flt (num 65) latest.rsi
        && flt (fdiv (fsub latest.rsi (ilocNeg data 3).rsi) (num 2)) (num (-(1 / 2)))
    let bb_rejection := fle (fmul latest.bb_upper (num (998 / 1000))) (num latest.close)
        && flt (ilocNeg data 2).bb_upper (num (ilocNeg data 2).high)
        && decide (latest.close < (ilocNeg data 2).close)
    let volume_selling :=
        flt (fmul (rollingMeanQF 20 (data.map Row.volume)) (num (3 / 2))) (num latest.volume)
        && decide (latest.close < (ilocNeg data 3).close)
    let macd_histogram := fsub latest.macd latest.macd_signal
    let prev_histogram := fsub (ilocNeg data 2).macd (ilocNeg data 2).macd_signal
    let macd_bearish := flt macd_histogram prev_histogram && flt (num 0) prev_histogram
        && flt latest.macd latest.macd_signal
    let resistance_levels := lastK 3 (dedupFirst (rollingMaxSeries 10 (data.map Row.high)))
    let resistance_rejection := resistance_levels.any (fun rs =>
        flt (fdiv (fabs (fsub (num latest.high) rs)) rs) (num (2 / 1000))
        && decide (latest.close < latest.opn))
    let stoch_overbought := flt (num 80) latest.stoch_k && flt (num 80) latest.stoch_d
        && flt latest.stoch_k latest.stoch_d
        && fle (ilocNeg data 2).stoch_d (ilocNeg data 2).stoch_k
    let body := |latest.close - latest.opn|
    let upper_wick :=
        if latest.close < latest.opn then latest.high - latest.close else latest.high - latest.opn
    let price_pattern := decide (body * 2 < upper_wick) && decide (latest.close < latest.opn)
    let conds := [rsi_exhaustion, bb_rejection, volume_selling, macd_bearish,
      resistance_rejection, stoch_overbought, price_pattern]
    let score := conds.countP id
    (decide (4 ≤ score), score,
      (if rsi_exhaustion then ["RSI exhaustion from overbought"] else [])
      ++ (if bb_rejection then ["Bollinger Band upper rejection"] else [])
      ++ (if volume_selling then ["High volume selling pressure"] else [])
      ++ (if macd_bearish then ["MACD bearish crossover"] else [])
      ++ (if resistance_rejection then ["Resistance rejection"] else [])
      ++ (if stoch_overbought then ["Stochastic overbought crossunder"] else [])
      ++ (if price_pattern then ["Bearish shooting star pattern"] else []))

/-! ### Scalping system state machine (`scalping_main.py`) -/

inductive Outcome where
  | win
  | loss
deriving DecidableEq, Repr, Inhabited

/-- An emitted scalping signal as tracked in `active_signals` (timestamps
in seconds). -/
structure ActiveSignal where
  type : SigType
  time : ℤ
  price : ℚ
  take_profit : ℚ
  stop_loss : ℚ
deriving DecidableEq, Repr, Inhabited

/-- The outward-visible events of one `check_market_conditions` call. -/
inductive Msg where
  | lossMsg
  | winMsg
  | circuitBreakerMsg
  | signalMsg (t : SigType)
deriving DecidableEq, Repr, Inhabited

structure ScalpState where
  signals_sent_today : ℕ
  last_signal_date : Option ℤ
  consecutive_losses : ℕ
  circuit_breaker_notified : Bool
  active_signals : List ActiveSignal
  signal_history : List (ActiveSignal × Outcome)
  last_signal_time : Option ℤ
deriving DecidableEq, Repr, Inhabited

def scalpInit : ScalpState :=
  { signals_sent_today := 0, last_signal_date := none, consecutive_losses := 0,
    circuit_breaker_notified := false, active_signals := [], signal_history := [],
    last_signal_time := none }

/-- WIN/LOSS decision for an expired signal against the fetched price. -/
def signalOutcome (s : ActiveSignal) (price : ℚ) : Outcome :=
  match s.type with
  | .buy =>
      if s.take_profit ≤ price then .win
      else if price ≤ s.stop_loss then .loss
      else if s.price < price then .win else .loss
  | .sell =>
      if price ≤ s.take_profit then .win
      else if s.stop_loss ≤ price then .loss
      else if price < s.price then .win else .loss

/-- `ScalpingSystem.check_signal_outcomes`: resolve, in list order, every
active signal at least 300 s old against the fetched price — a loss
increments `consecutive_losses`, a win resets it to 0 — and move it to the
history; a failed price fetch (`none`) leaves everything untouched. -/
def outcomeStep (t : ℤ) (price : ℚ) (acc : ScalpState × List Msg) (s : ActiveSignal) :
    ScalpState × List Msg :=
  if 300 ≤ t - s.time then
    match signalOutcome s price with
    | .loss =>
        ({ acc.1 with
            consecutive_losses := acc.1.consecutive_losses + 1,
            signal_history := acc.1.signal_history ++ [(s, .loss)] },
         acc.2 ++ [.lossMsg])
    | .win =>
        ({ acc.1 with
            consecutive_losses := 0,
            signal_history := acc.1.signal_history ++ [(s, .win)] },
         acc.2 ++ [.winMsg])
  else ({ acc.1 with active_signals := acc.1.active_signals ++ [s] }, acc.2)

def checkSignalOutcomes (st : ScalpState) (t : ℤ) (priceOpt : Option ℚ) :
    ScalpState × List Msg :=
  match priceOpt with
  | none => (st, [])
  | some price =>
      st.active_signals.foldl (outcomeStep t price) ({ st with active_signals := [] }, [])

/-- The daily rollover block of `check_market_conditions`. -/
def scalpDailyReset (st : ScalpState) (d : ℤ) : ScalpState :=
  if st.last_signal_date = some d then st
  else
    { st with
      signals_sent_today := 0, last_signal_date := some d,
      consecutive_losses := 0, circuit_breaker_notified := false }

/-- `ScalpingSignalGenerator.generate_scalping_signal` on an augmented
window: the 300 s minimum-interval gate, then the two rule evaluations; a
BUY signal needs the BUY check to pass with a strictly higher score than
SELL (and symmetrically). -/
def generateScalpingSignal (lastSig : Option ℤ) (t : ℤ) (w : List Row) : Option ActiveSignal :=
  let canGen :=
    match lastSig with
    | none => true
    | some lt => decide (300 ≤ t - lt)
  if !canGen then none
  else
    let b := checkScalpingBuy w
    let sg := checkScalpingSell w
    let price := (ilocNeg w 1).close
    if b.1 && decide (sg.2.1 < b.2.1) then
      some { type := .buy, time := t, price := price,
             take_profit := price * (101 / 100), stop_loss := price * (995 / 1000) }
    else if sg.1 && decide (b.2.1 < sg.2.1) then
      some { type := .sell, time := t, price := price,
             take_profit := price * (99 / 100), stop_loss := price * (1005 / 1000) }
    else none

/-- One call of `ScalpingSystem.check_market_conditions`: resolve outcomes,
daily rollover, daily cap of 8, circuit breaker with its one-shot
notification flag, then signal generation (emission appends to
`active_signals`, bumps the daily count and the last-signal time). -/
def scalpStep (st : ScalpState) (d : ℤ) (t : ℤ) (priceOpt : Option ℚ) (w : List Row) :
    ScalpState × List Msg :=
  let out := checkSignalOutcomes st t priceOpt
  let st2 := scalpDailyReset out.1 d
  if 8 ≤ st2.signals_sent_today then (st2, out.2)
  else if 3 ≤ st2.consecutive_losses then
    if st2.circuit_breaker_notified then (st2, out.2)
    else ({ st2 with circuit_breaker_notified := true }, out.2 ++ [.circuitBreakerMsg])
  else
    match generateScalpingSignal st2.last_signal_time t w with
    | some sig =>
        ({ st2 with
            active_signals := st2.active_signals ++ [sig],
            signals_sent_today := st2.signals_sent_today + 1,
            last_signal_time := some t }, out.2 ++ [.signalMsg sig.type])
    | none => (st2, out.2)

/-- One polling call: its date, time (seconds), fetched price (`none` for
a failed fetch) and fetched-and-augmented data window. -/
structure ScalpCall where
  date : ℤ
  time : ℤ
  price : Option ℚ
  window : List Row
deriving Repr, Inhabited

def scalpRun (st : ScalpState) : List ScalpCall → ScalpState × List Msg
  | [] => (st, [])
  | c :: cs =>
      let r := scalpStep st c.date c.time c.price c.window
      let rest := scalpRun r.1 cs
      (rest.1, r.2 ++ rest.2)

/-- Per-call trace: state after each call paired with that call's
messages. -/
def scalpTrace (st : ScalpState) : List ScalpCall → List (ScalpState × List Msg)
  | [] => []
  | c :: cs =>
      let r := scalpStep st c.date c.time c.price c.window
      r :: scalpTrace r.1 cs

def countSignalMsgs (msgs : List Msg) : ℕ :=
  msgs.countP (fun m => match m with | .signalMsg _ => true | _ => false)

def countCbMsgs (msgs : List Msg) : ℕ :=
  msgs.countP (fun m => decide (m = .circuitBreakerMsg))

/-! ### Concrete scalping trace used for C5 and C6 -/

/-- Neutral row: no scalping condition fires on a window of these. -/
def scalpBaseRow : Row :=
  { opn := 100, high := 102, low := 99, close := 100, volume := 100,
    rsi := num 50, bb_lower := num 50, bb_upper := num 200,
    macd := num 0, macd_signal := num 0,
    stoch_k := num 50, stoch_d := num 50, atr := num 1, ichimoku_span_a := num 100 }

def scalpR3 : Row := { scalpBaseRow with rsi := num 25 }

def scalpR2 : Row := { scalpBaseRow with macd := num (-2), stoch_k := num 10, stoch_d := num 12 }

/-- Last row of the qualifying window: BUY conditions 1, 3, 4, 5, 6, 7
fire (score 6), no SELL condition fires. -/
def scalpR1 : Row :=
  { opn := 201 / 2, high := 102, low := 99, close := 101, volume := 200,
    rsi := num 30, bb_lower := num 50, bb_upper := num 200,
    macd := num (-1), macd_signal := num 0,
    stoch_k := num 18, stoch_d := num 15, atr := num 1, ichimoku_span_a := num 100 }

/-- 100-row window on which the scalping BUY check fires with score 6. -/
def scalpBuyW : List Row := (List.replicate 97 scalpBaseRow) ++ [scalpR3, scalpR2, scalpR1]

/-- Nine same-day calls: four signals stack up across fetch failures, three
resolve as losses in one call (first breaker activation, notified), a win
resets the counter, three more signals stack and lose (second activation —
not notified, the flag is still set). -/
def scalpDemoCalls : List ScalpCall :=
  [ ⟨0, 0, none, scalpBuyW⟩,
    ⟨0, 300, none, scalpBuyW⟩,
    ⟨0, 600, none, scalpBuyW⟩,
    ⟨0, 900, none, scalpBuyW⟩,
    ⟨0, 1000, some 50, []⟩,
    ⟨0, 1250, some 200, scalpBuyW⟩,
    ⟨0, 1550, none, scalpBuyW⟩,
    ⟨0, 1850, none, scalpBuyW⟩,
    ⟨0, 2200, some 50, []⟩ ]

def scalpDemoTrace : List (ScalpState × List Msg) := scalpTrace scalpInit scalpDemoCalls

/-- Eight same-day calls of the basic generator, each with a window whose
BUY score qualifies, at an in-window hour. -/
def genDemoCalls : List (ℤ × ℕ × List Row) :=
  List.replicate 8 (0, 5, [c1Row0, c1Row1])

/-- Strictly ascending 15-bar close series: every delta is `+1`, so the
14-bar average loss is exactly `0` while the average gain is `1`. -/
def asc15 : List ℚ := [1, 2, 3, 4, 5, 6, 7, 8, 9, 10, 11, 12, 13, 14, 15]

/-- One bar of a constant (flat) price-and-volume series. -/
def flatBar (c v : ℚ) : Bar := { opn := c, high := c, low := c, close := c, volume := v }

/-- A flat raw series of `n` identical bars. -/
def flatBars (n : ℕ) (c v : ℚ) : List Bar := List.replicate n (flatBar c v)

/-- The indicator-augmented flat series. -/
def flatData (sqrtP : ℚ → ℚ) (n : ℕ) (c v : ℚ) : List Row :=
  addAllIndicators sqrtP (flatBars n c v)

/-!  Claim theorems start below; supporting lemmas first. -/

theorem strictTimes_chain' : ∀ l : List ℤ, strictTimes l = true → l.Chain' (· < ·)
  | [], _ => List.chain'_nil
  | [_], _ => List.chain'_singleton _
  | a :: b :: rest, h => by
      simp only [strictTimes, Bool.and_eq_true, decide_eq_true_eq] at h
      rw [List.chain'_cons]
      exact ⟨h.1, strictTimes_chain' (b :: rest) h.2⟩

/-! ### Frame lemmas for the backtest loop -/

theorem btDailyReset_fields (st : BTState) (t : ℤ) :
    (btDailyReset st t).trades = st.trades ∧ (btDailyReset st t).capital = st.capital
    ∧ (btDailyReset st t).position = st.position ∧ (btDailyReset st t).results = st.results := by
  unfold btDailyReset
  split <;> simp

theorem btTrade_results (w : List Row) (t : ℤ) (r : Row) (st : BTState) :
    (btTrade w t r st).results = st.results := by
  unfold btTrade
  rcases st.position with _ | p
  · dsimp only
    split
    · rfl
    · split <;> rfl
  · dsimp only
    split <;> rfl

theorem btTrade_frame (w : List Row) (t : ℤ) (r : Row) (st : BTState) :
    ∃ suf, (btTrade w t r st).trades = st.trades ++ suf
      ∧ (btTrade w t r st).capital = st.capital + (suf.map Trade.pnl).sum := by
  unfold btTrade
  rcases st.position with _ | p
  · dsimp only
    split
    · exact ⟨[], by simp, by simp⟩
    · split
      · exact ⟨[], by simp, by simp⟩
      · exact ⟨[], by simp, by simp⟩
  · dsimp only
    split
    · refine ⟨_, rfl, ?_⟩
      simp
    · exact ⟨[], by simp, by simp⟩

theorem btStep_frame (rows : List (ℤ × Row)) (i : ℕ) (st : BTState) :
    ∃ suf, (btStep rows i st).trades = st.trades ++ suf
      ∧ (btStep rows i st).capital = st.capital + (suf.map Trade.pnl).sum := by
  unfold btStep
  dsimp only
  have hres := btDailyReset_fields st (rows.getD i default).1
  split
  · refine ⟨[], ?_, ?_⟩
    · rw [List.append_nil]
      exact hres.1
    · simp only [List.map_nil, List.sum_nil, add_zero]
      exact hres.2.1
  · obtain ⟨suf, h1, h2⟩ :=
      btTrade_frame (((rows.take (i + 1)).drop (i - 100)).map Prod.snd)
        (rows.getD i default).1 (rows.getD i default).2 (btDailyReset st (rows.getD i default).1)
    refine ⟨suf, ?_, ?_⟩
    · show (btTrade _ _ _ _).trades = _
      rw [h1, hres.1]
    · show (btTrade _ _ _ _).capital = _
      rw [h2, hres.2.1]

theorem btLoop_frame (rows : List (ℤ × Row)) (fuel i : ℕ) (st : BTState) :
    ∃ suf, (btLoop rows fuel i st).trades = st.trades ++ suf
      ∧ (btLoop rows fuel i st).capital = st.capital + (suf.map Trade.pnl).sum := by
  induction fuel generalizing i st with
  | zero => exact ⟨[], by simp [btLoop]⟩
  | succ n ih =>
      rw [btLoop]
      by_cases hlt : i < rows.length
      · simp only [hlt, if_true]
        obtain ⟨s1, hs1, hc1⟩ := btStep_frame rows i st
        obtain ⟨s2, hs2, hc2⟩ := ih (i + 1) (btStep rows i st)
        refine ⟨s1 ++ s2, ?_, ?_⟩
        · rw [hs2, hs1, List.append_assoc]
        · rw [hc2, hc1, List.map_append, List.sum_append, add_assoc]
      · simp only [hlt, if_false]
        exact ⟨[], by simp⟩

/-- A claim (C10).  Throughout a backtest run, capital changes exactly by
the pnl of the trades appended when a position closes: every loop step
extends the trade list by a (possibly empty) suffix and adds exactly that
suffix's pnl to capital — so opening a position (whose notional is
`capital * position_size_fraction`) and recording snapshots leave capital
unchanged, and the final capital is the initial capital plus the total pnl
of the recorded trades. -/
theorem backtest_capital_frame_C10 :
    (∀ (rows : List (ℤ × Row)) (i : ℕ) (st : BTState),
        ∃ suf, (btStep rows i st).trades = st.trades ++ suf
          ∧ (btStep rows i st).capital = st.capital + (suf.map Trade.pnl).sum)
    ∧ (∀ (rows : List (ℤ × Row)) (initial_capital : ℚ),
        (runBacktest rows initial_capital).capital
          = initial_capital + ((runBacktest rows initial_capital).trades.map Trade.pnl).sum) := by
  refine ⟨btStep_frame, ?_⟩
  intro rows initial_capital
  obtain ⟨suf, hs, hc⟩ := btLoop_frame rows (rows.length - 100) 100
    { capital := initial_capital, position := none, trades := [], results := [],
      currentDate := none, dailyCount := 0 }
  unfold runBacktest
  rw [hc]
  simp only [hs]
  simp


/-- A claim (C1).  For every indicator-augmented window of length at least
2, the basic scorer emits BUY exactly when the BUY score is at least 2 and
strictly exceeds the SELL score, SELL symmetrically, no signal on a tie,
and both scores lie in `0..5`. -/
theorem basic_scorer_decision_C1 (data : List Row) (h : 2 ≤ data.length) :
    (signalDecision data = some .buy ↔ 2 ≤ buyScore data ∧ sellScore data < buyScore data)
    ∧ (signalDecision data = some .sell ↔ 2 ≤ sellScore data ∧ buyScore data < sellScore data)
    ∧ (buyScore data = sellScore data → signalDecision data = none)
    ∧ buyScore data ≤ 5 ∧ sellScore data ≤ 5 := by
  have hb5 : buyScore data ≤ 5 := by
    unfold buyScore
    dsimp only
    split <;> split <;> split <;> split <;> split <;> simp
  have hs5 : sellScore data ≤ 5 := by
    unfold sellScore
    dsimp only
    split <;> split <;> split <;> split <;> split <;> simp
  refine ⟨?_, ?_, ?_, hb5, hs5⟩
  · unfold signalDecision
    constructor
    · intro hd
      by_cases hbuy : 2 ≤ buyScore data ∧ sellScore data < buyScore data
      · exact hbuy
      · simp only [hbuy, if_false] at hd
        split at hd <;> simp_all
    · intro hbuy
      simp [hbuy]
  · unfold signalDecision
    constructor
    · intro hd
      by_cases hbuy : 2 ≤ buyScore data ∧ sellScore data < buyScore data
      · simp [hbuy] at hd
      · simp only [hbuy, if_false] at hd
        split at hd <;> simp_all
    · intro hsell
      have : ¬ (2 ≤ buyScore data ∧ sellScore data < buyScore data) := by omega
      simp [this, hsell]
  · intro he
    unfold signalDecision
    have h1 : ¬ (2 ≤ buyScore data ∧ sellScore data < buyScore data) := by omega
    have h2 : ¬ (2 ≤ sellScore data ∧ buyScore data < sellScore data) := by omega
    simp [h1, h2]

/-- Witness for C1 at the concrete window `[c1Row0, c1Row1]`. -/
theorem basic_scorer_decision_C1_witness :
    2 ≤ ([c1Row0, c1Row1] : List Row).length
    ∧ ((signalDecision [c1Row0, c1Row1] = some .buy
          ↔ 2 ≤ buyScore [c1Row0, c1Row1] ∧ sellScore [c1Row0, c1Row1] < buyScore [c1Row0, c1Row1])
      ∧ (signalDecision [c1Row0, c1Row1] = some .sell
          ↔ 2 ≤ sellScore [c1Row0, c1Row1] ∧ buyScore [c1Row0, c1Row1] < sellScore [c1Row0, c1Row1])
      ∧ (buyScore [c1Row0, c1Row1] = sellScore [c1Row0, c1Row1]
          → signalDecision [c1Row0, c1Row1] = none)
      ∧ buyScore [c1Row0, c1Row1] ≤ 5 ∧ sellScore [c1Row0, c1Row1] ≤ 5) :=
  ⟨by decide, basic_scorer_decision_C1 [c1Row0, c1Row1] (by decide)⟩

/-- The close-branch pnl of the source, rewritten in the claim's
`sign(direction) * (exit-entry)/entry * size` form. -/
theorem pnl_sign_form (ty : SigType) (exit_price entry_price size : ℚ) :
    (match ty with
      | SigType.buy => (exit_price - entry_price) / entry_price * size
      | SigType.sell => (entry_price - exit_price) / entry_price * size)
    = (if ty = .buy then (1 : ℚ) else -1) * ((exit_price - entry_price) / entry_price) * size := by
  rcases ty <;> simp <;> ring

/-- A claim (C2), corrected.  At every bar the backtest actually evaluates
(inside a configured time window and below the daily cap), an open position
whose expiry `entry_time + 1` has been reached is closed at that bar's
close price: capital grows by `sign(direction) * (exit-entry)/entry * size`,
the corresponding trade is appended, the state returns to flat, and the
snapshot records the flat state.  (As originally stated — for *every* bar —
the claim fails: see the counterexample, where an out-of-window bar skips
the close.) -/
theorem backtest_expiry_close_C2 (rows : List (ℤ × Row)) (i : ℕ) (st : BTState) (p : Position)
    (hpos : st.position = some p)
    (hwin : inBtWindow (hourOf (rows.getD i default).1) = true)
    (hcap : (btDailyReset st (rows.getD i default).1).dailyCount < 6)
    (hexp : p.entry_time + 1 ≤ (rows.getD i default).1) :
    (btStep rows i st).position = none
    ∧ (btStep rows i st).capital = st.capital
        + (if p.type = .buy then (1 : ℚ) else -1)
          * (((rows.getD i default).2.close - p.entry_price) / p.entry_price) * p.size
    ∧ (btStep rows i st).trades = st.trades ++
        [{ type := p.type, entry_time := p.entry_time, entry_price := p.entry_price,
           exit_time := (rows.getD i default).1, exit_price := (rows.getD i default).2.close,
           size := p.size,
           pnl := (if p.type = .buy then (1 : ℚ) else -1)
             * (((rows.getD i default).2.close - p.entry_price) / p.entry_price) * p.size,
           pnl_percent := (if p.type = .buy then (1 : ℚ) else -1)
             * (((rows.getD i default).2.close - p.entry_price) / p.entry_price) * p.size
             / p.size * 100,
           strength := p.strength }]
    ∧ (btStep rows i st).results = st.results ++
        [{ timestamp := (rows.getD i default).1, close := (rows.getD i default).2.close,
           capital := st.capital
             + (if p.type = .buy then (1 : ℚ) else -1)
               * (((rows.getD i default).2.close - p.entry_price) / p.entry_price) * p.size,
           position := none }] := by
  have hreset := btDailyReset_fields st (rows.getD i default).1
  have hguard : ¬ ((!inBtWindow (hourOf (rows.getD i default).1)
      || decide (6 ≤ (btDailyReset st (rows.getD i default).1).dailyCount)) = true) := by
    simp only [hwin, Bool.not_true, Bool.false_or, decide_eq_true_eq]
    omega
  unfold btStep
  dsimp only
  rw [if_neg hguard]
  unfold btTrade
  rw [hreset.2.2.1, hpos]
  dsimp only
  rw [if_pos hexp]
  rw [pnl_sign_form p.type (rows.getD i default).2.close p.entry_price p.size]
  refine ⟨rfl, ?_, ?_, ?_⟩
  · dsimp only
    rw [hreset.2.1]
  · dsimp only
    rw [hreset.1]
  · dsimp only
    rw [hreset.2.2.2, hreset.2.1]
    simp only [Option.map_none']

/-- Witness for the corrected C2 at bar 101 of `btDemoRows2` (minute 240,
hour 4, inside a window): the expired BUY position closes there. -/
theorem backtest_expiry_close_C2_witness :
    btDemoMid2.position = some btDemoPos
    ∧ inBtWindow (hourOf ((btDemoRows2.getD 101 default).1)) = true
    ∧ (btDailyReset btDemoMid2 (btDemoRows2.getD 101 default).1).dailyCount < 6
    ∧ btDemoPos.entry_time + 1 ≤ (btDemoRows2.getD 101 default).1
    ∧ ((btStep btDemoRows2 101 btDemoMid2).position = none
      ∧ (btStep btDemoRows2 101 btDemoMid2).capital = btDemoMid2.capital
          + (if btDemoPos.type = .buy then (1 : ℚ) else -1)
            * (((btDemoRows2.getD 101 default).2.close - btDemoPos.entry_price) / btDemoPos.entry_price)
            * btDemoPos.size
      ∧ (btStep btDemoRows2 101 btDemoMid2).trades = btDemoMid2.trades ++
          [{ type := btDemoPos.type, entry_time := btDemoPos.entry_time,
             entry_price := btDemoPos.entry_price,
             exit_time := (btDemoRows2.getD 101 default).1,
             exit_price := (btDemoRows2.getD 101 default).2.close,
             size := btDemoPos.size,
             pnl := (if btDemoPos.type = .buy then (1 : ℚ) else -1)
               * (((btDemoRows2.getD 101 default).2.close - btDemoPos.entry_price) / btDemoPos.entry_price)
               * btDemoPos.size,
             pnl_percent := (if btDemoPos.type = .buy then (1 : ℚ) else -1)
               * (((btDemoRows2.getD 101 default).2.close - btDemoPos.entry_price) / btDemoPos.entry_price)
               * btDemoPos.size / btDemoPos.size * 100,
             strength := btDemoPos.strength }]
      ∧ (btStep btDemoRows2 101 btDemoMid2).results = btDemoMid2.results ++
          [{ timestamp := (btDemoRows2.getD 101 default).1,
             close := (btDemoRows2.getD 101 default).2.close,
             capital := btDemoMid2.capital
               + (if btDemoPos.type = .buy then (1 : ℚ) else -1)
                 * (((btDemoRows2.getD 101 default).2.close - btDemoPos.entry_price) / btDemoPos.entry_price)
                 * btDemoPos.size,
             position := none }]) :=
  ⟨by decide, by decide, by decide, by decide,
    backtest_expiry_close_C2 btDemoRows2 101 btDemoMid2 btDemoPos
      (by decide) (by decide) (by decide) (by decide)⟩

/-- Counterexample to C2 as stated.  In `btDemoRows` the position opened at
minute 100 is expired at bar 101 (minute 125 ≥ 101), yet that bar falls at
hour 2 — outside every configured window — so the loop's `continue` skips
the bar: no trade is recorded and the position does not close at that bar
(nor ever). -/
theorem backtest_expiry_close_C2_counterexample :
    (runBacktest btDemoRows 10000).position.map Position.entry_time = some 100
    ∧ (btDemoRows.getD 101 default).1 = 125
    ∧ (100 : ℤ) + 1 ≤ 125
    ∧ (runBacktest btDemoRows 10000).trades = [] := by decide

/-- One-step case analysis of the backtest loop: a step leaves the state's
trades and position alone, opens a position at the bar's own timestamp, or
closes the open position into exactly one appended trade exiting at the
bar's timestamp. -/
theorem btTrade_cases (w : List Row) (t : ℤ) (r : Row) (st : BTState) :
    ((btTrade w t r st).trades = st.trades ∧ (btTrade w t r st).position = st.position)
    ∨ ((btTrade w t r st).trades = st.trades ∧ st.position = none
        ∧ ∃ q, (btTrade w t r st).position = some q ∧ q.entry_time = t)
    ∨ (∃ tr, (btTrade w t r st).trades = st.trades ++ [tr] ∧ (btTrade w t r st).position = none
        ∧ tr.exit_time = t) := by
  unfold btTrade
  rcases hp : st.position with _ | p
  · dsimp only
    split
    · exact Or.inr (Or.inl ⟨rfl, rfl, _, rfl, rfl⟩)
    · split
      · exact Or.inr (Or.inl ⟨rfl, rfl, _, rfl, rfl⟩)
      · exact Or.inl ⟨rfl, hp⟩
  · dsimp only
    split
    · exact Or.inr (Or.inr ⟨_, rfl, rfl, rfl⟩)
    · exact Or.inl ⟨rfl, hp⟩

theorem btStep_cases (rows : List (ℤ × Row)) (i : ℕ) (st : BTState) :
    ((btStep rows i st).trades = st.trades ∧ (btStep rows i st).position = st.position)
    ∨ ((btStep rows i st).trades = st.trades ∧ st.position = none
        ∧ ∃ q, (btStep rows i st).position = some q ∧ q.entry_time = (rows.getD i default).1)
    ∨ (∃ tr, (btStep rows i st).trades = st.trades ++ [tr] ∧ (btStep rows i st).position = none
        ∧ tr.exit_time = (rows.getD i default).1) := by
  have hr := btDailyReset_fields st (rows.getD i default).1
  unfold btStep
  dsimp only
  split
  · exact Or.inl ⟨hr.1, hr.2.2.1⟩
  · have hc := btTrade_cases (((rows.take (i + 1)).drop (i - 100)).map Prod.snd)
      (rows.getD i default).1 (rows.getD i default).2 (btDailyReset st (rows.getD i default).1)
    rcases hc with ⟨h1, h2⟩ | ⟨h1, h2, q, h3, h4⟩ | ⟨tr, h1, h2, h3⟩
    · refine Or.inl ⟨?_, ?_⟩
      · show (btTrade _ _ _ _).trades = _
        rw [h1, hr.1]
      · show (btTrade _ _ _ _).position = _
        rw [h2, hr.2.2.1]
    · refine Or.inr (Or.inl ⟨?_, ?_, q, ?_, h4⟩)
      · show (btTrade _ _ _ _).trades = _
        rw [h1, hr.1]
      · rw [← hr.2.2.1]
        exact h2
      · show (btTrade _ _ _ _).position = _
        exact h3
    · refine Or.inr (Or.inr ⟨tr, ?_, ?_, h3⟩)
      · show (btTrade _ _ _ _).trades = _
        rw [h1, hr.1]
      · show (btTrade _ _ _ _).position = _
        exact h2

theorem btLoop_inv (rows : List (ℤ × Row))
    (hmono : ∀ a b : ℕ, a < b → b < rows.length →
      (rows.getD a default).1 < (rows.getD b default).1)
    (fuel i : ℕ) (st : BTState) (hinv : BtInv rows i st) :
    BtInv rows rows.length (btLoop rows fuel i st) := by
  induction fuel generalizing i st with
  | zero =>
      rw [btLoop]
      exact ⟨fun tr _ j hj1 hj2 => absurd hj2 (by omega), hinv.2⟩
  | succ n ih =>
      rw [btLoop]
      by_cases hlt : i < rows.length
      · simp only [hlt, if_true]
        refine ih (i + 1) (btStep rows i st) ?_
        rcases btStep_cases rows i st with ⟨h1, h2⟩ | ⟨h1, h2, q, h3, h4⟩ | ⟨tr, h1, h2, h3⟩
        · constructor
          · intro tr htr j hj1 hj2
            exact hinv.1 tr (h1 ▸ htr) j (by omega) hj2
          · intro p hp tr htr
            rw [h2] at hp
            exact hinv.2 p hp tr (h1 ▸ htr)
        · constructor
          · intro tr htr j hj1 hj2
            exact hinv.1 tr (h1 ▸ htr) j (by omega) hj2
          · intro p hp tr htr
            rw [h3] at hp
            injection hp with hq
            have := hinv.1 tr (h1 ▸ htr) i (le_refl i) hlt
            rw [← hq, h4]
            exact this
        · constructor
          · intro tr2 htr j hj1 hj2
            rw [h1, List.mem_append, List.mem_singleton] at htr
            rcases htr with hold | hnew
            · exact hinv.1 tr2 hold j (by omega) hj2
            · rw [hnew, h3]
              exact hmono i j (by omega) hj2
          · intro p hp
            rw [h2] at hp
            exact absurd hp (by simp)
      · simp only [hlt, if_false]
        exact ⟨fun tr _ j hj1 hj2 => absurd hj2 (by omega), hinv.2⟩

/-- A claim (C3), corrected.  When the series ends there is no force-close:
every trade in the returned list exited strictly before the still-open
position was even entered, so a position open at the end of the series is
silently dropped from the trade list and the run does not terminate flat.
(The original claim — force-close at the last price, terminal FLAT — is
refuted by the counterexample.) -/
theorem backtest_open_position_dropped_C3 (rows : List (ℤ × Row)) (cap : ℚ) (p : Position)
    (hchain : strictTimes (rows.map Prod.fst) = true)
    (hp : (runBacktest rows cap).position = some p) :
    ∀ tr ∈ (runBacktest rows cap).trades, tr.exit_time < p.entry_time := by
  have hmono : ∀ a b : ℕ, a < b → b < rows.length →
      (rows.getD a default).1 < (rows.getD b default).1 := by
    intro a b hab hb
    have hpw : (rows.map Prod.fst).Pairwise (· < ·) :=
      List.chain'_iff_pairwise.mp (strictTimes_chain' _ hchain)
    have hlen : (rows.map Prod.fst).length = rows.length := List.length_map _ _
    have hh := List.pairwise_iff_get.mp hpw ⟨a, by omega⟩ ⟨b, by omega⟩ (by simpa using hab)
    rw [List.get_map, List.get_map] at hh
    rw [List.getD_eq_get rows default (by omega), List.getD_eq_get rows default hb]
    exact hh
  have hinv := btLoop_inv rows hmono (rows.length - 100) 100
    { capital := cap, position := none, trades := [], results := [],
      currentDate := none, dailyCount := 0 }
    ⟨fun tr htr => absurd htr (List.not_mem_nil tr), fun q hq tr htr => absurd htr (List.not_mem_nil tr)⟩
  exact hinv.2 p hp

/-- Witness for the corrected C3 at `btDemoRows`: the run ends with the
bar-100 position still open and an empty trade list. -/
theorem backtest_open_position_dropped_C3_witness :
    strictTimes (btDemoRows.map Prod.fst) = true
    ∧ (runBacktest btDemoRows 10000).position = some btDemoPos
    ∧ ∀ tr ∈ (runBacktest btDemoRows 10000).trades, tr.exit_time < btDemoPos.entry_time :=
  ⟨by decide, by decide,
    backtest_open_position_dropped_C3 btDemoRows 10000 btDemoPos (by decide) (by decide)⟩

/-- Counterexample to C3 as stated.  `btDemoRows` ends with the position
opened at bar 100 still open: the backtest does not terminate in the FLAT
state and the open position never reaches the trade list. -/
theorem backtest_force_close_C3_counterexample :
    (runBacktest btDemoRows 10000).position ≠ none
    ∧ (runBacktest btDemoRows 10000).trades = [] := by decide

/-- A claim (C4), corrected.  A results-row snapshot is recorded exactly at
the bars the backtest evaluates: on a post-warmup bar outside every
configured time window, or once the daily signal cap is reached, the
`continue` skips the bar before the snapshot, so no row is appended; on an
evaluated bar exactly one row is appended, carrying the bar's timestamp and
close and the post-branch capital and position.  (As originally stated —
a snapshot for every post-warmup bar regardless of branch — the claim
fails: see the counterexample.) -/
theorem backtest_snapshot_C4 (rows : List (ℤ × Row)) (i : ℕ) (st : BTState) :
    (¬ (inBtWindow (hourOf (rows.getD i default).1) = true
        ∧ (btDailyReset st (rows.getD i default).1).dailyCount < 6) →
      (btStep rows i st).results = st.results)
    ∧ ((inBtWindow (hourOf (rows.getD i default).1) = true
        ∧ (btDailyReset st (rows.getD i default).1).dailyCount < 6) →
      (btStep rows i st).results = st.results ++
        [{ timestamp := (rows.getD i default).1,
           close := (rows.getD i default).2.close,
           capital := (btStep rows i st).capital,
           position := (btStep rows i st).position.map Position.type }]) := by
  have hres := btDailyReset_fields st (rows.getD i default).1
  constructor
  · intro hno
    have hg : (!inBtWindow (hourOf (rows.getD i default).1)
        || decide (6 ≤ (btDailyReset st (rows.getD i default).1).dailyCount)) = true := by
      by_cases hw : inBtWindow (hourOf (rows.getD i default).1) = true
      · simp only [hw, Bool.not_true, Bool.false_or, decide_eq_true_eq]
        have hcc : ¬ ((btDailyReset st (rows.getD i default).1).dailyCount < 6) :=
          fun hh => hno ⟨hw, hh⟩
        omega
      · have hw' : inBtWindow (hourOf (rows.getD i default).1) = false := by
          rcases Bool.eq_false_or_eq_true (inBtWindow (hourOf (rows.getD i default).1)) with h | h
          · exact absurd h hw
          · exact h
        simp only [hw', Bool.not_false, Bool.true_or]
    unfold btStep
    dsimp only
    rw [if_pos hg]
    exact hres.2.2.2
  · rintro ⟨hw, hc⟩
    have hg : ¬ ((!inBtWindow (hourOf (rows.getD i default).1)
        || decide (6 ≤ (btDailyReset st (rows.getD i default).1).dailyCount)) = true) := by
      simp only [hw, Bool.not_true, Bool.false_or, decide_eq_true_eq]
      omega
    unfold btStep
    dsimp only
    rw [if_neg hg]
    show (btTrade _ _ _ _).results ++ _ = _
    rw [btTrade_results, hres.2.2.2]

/-- Witness for the corrected C4: bar 101 of `btDemoRows` (hour 2, outside
every window) appends no snapshot. -/
theorem backtest_snapshot_C4_witness :
    (¬ (inBtWindow (hourOf ((btDemoRows.getD 101 default).1)) = true
        ∧ (btDailyReset btDemoMid1 (btDemoRows.getD 101 default).1).dailyCount < 6))
    ∧ (btStep btDemoRows 101 btDemoMid1).results = btDemoMid1.results :=
  ⟨by decide, (backtest_snapshot_C4 btDemoRows 101 btDemoMid1).1 (by decide)⟩

/-- Counterexample to C4 as stated.  `btDemoRows` has two post-warmup bars
but the backtest records only one results row: the bar at hour 2 is skipped
before the snapshot, so the results series does not have one row per
post-warmup bar. -/
theorem backtest_snapshot_C4_counterexample :
    (runBacktest btDemoRows 10000).results.length = 1
    ∧ btDemoRows.length - 100 = 2 := by decide

/-! ### Rate-limiting lemmas (C5, C6) -/

theorem countSignalMsgs_append (a b : List Msg) :
    countSignalMsgs (a ++ b) = countSignalMsgs a + countSignalMsgs b :=
  List.countP_append _ _ _

theorem countCbMsgs_append (a b : List Msg) :
    countCbMsgs (a ++ b) = countCbMsgs a + countCbMsgs b :=
  List.countP_append _ _ _

theorem outcomeStep_fields (t : ℤ) (price : ℚ) (acc : ScalpState × List Msg) (s : ActiveSignal) :
    (outcomeStep t price acc s).1.signals_sent_today = acc.1.signals_sent_today
    ∧ (outcomeStep t price acc s).1.last_signal_date = acc.1.last_signal_date
    ∧ (outcomeStep t price acc s).1.circuit_breaker_notified = acc.1.circuit_breaker_notified
    ∧ countSignalMsgs (outcomeStep t price acc s).2 = countSignalMsgs acc.2
    ∧ countCbMsgs (outcomeStep t price acc s).2 = countCbMsgs acc.2 := by
  unfold outcomeStep
  split
  · rcases h : signalOutcome s price <;>
      simp [h, countSignalMsgs, countCbMsgs, List.countP_append]
  · simp [countSignalMsgs, countCbMsgs]

theorem outcomes_foldl_fields (t : ℤ) (price : ℚ) :
    ∀ (l : List ActiveSignal) (acc : ScalpState × List Msg),
    (l.foldl (outcomeStep t price) acc).1.signals_sent_today = acc.1.signals_sent_today
    ∧ (l.foldl (outcomeStep t price) acc).1.last_signal_date = acc.1.last_signal_date
    ∧ (l.foldl (outcomeStep t price) acc).1.circuit_breaker_notified
        = acc.1.circuit_breaker_notified
    ∧ countSignalMsgs (l.foldl (outcomeStep t price) acc).2 = countSignalMsgs acc.2
    ∧ countCbMsgs (l.foldl (outcomeStep t price) acc).2 = countCbMsgs acc.2
  | [], acc => ⟨rfl, rfl, rfl, rfl, rfl⟩
  | s :: l, acc => by
      have h1 := outcomeStep_fields t price acc s
      have h2 := outcomes_foldl_fields t price l (outcomeStep t price acc s)
      simp only [List.foldl_cons]
      exact ⟨h2.1.trans h1.1, h2.2.1.trans h1.2.1, h2.2.2.1.trans h1.2.2.1,
        h2.2.2.2.1.trans h1.2.2.2.1, h2.2.2.2.2.trans h1.2.2.2.2⟩

theorem outcomes_fields (st : ScalpState) (t : ℤ) (p : Option ℚ) :
    (checkSignalOutcomes st t p).1.signals_sent_today = st.signals_sent_today
    ∧ (checkSignalOutcomes st t p).1.last_signal_date = st.last_signal_date
    ∧ (checkSignalOutcomes st t p).1.circuit_breaker_notified = st.circuit_breaker_notified
    ∧ countSignalMsgs (checkSignalOutcomes st t p).2 = 0
    ∧ countCbMsgs (checkSignalOutcomes st t p).2 = 0 := by
  cases p with
  | none => exact ⟨rfl, rfl, rfl, rfl, rfl⟩
  | some price =>
      have h := outcomes_foldl_fields t price st.active_signals
        ({ st with active_signals := [] }, [])
      simp only [checkSignalOutcomes]
      exact ⟨h.1, h.2.1, h.2.2.1, h.2.2.2.1, h.2.2.2.2⟩

theorem scalpDailyReset_date (st : ScalpState) (d : ℤ) :
    (scalpDailyReset st d).last_signal_date = some d := by
  unfold scalpDailyReset
  split
  · next h => exact h
  · rfl

theorem reset_sent_base (st : ScalpState) (t : ℤ) (p : Option ℚ) (d : ℤ) :
    (scalpDailyReset (checkSignalOutcomes st t p).1 d).signals_sent_today
      = (if st.last_signal_date = some d then st.signals_sent_today else 0) := by
  have ho := outcomes_fields st t p
  unfold scalpDailyReset
  split
  · next h =>
      rw [ho.2.1] at h
      rw [ho.1]
      simp [h]
  · next h =>
      rw [ho.2.1] at h
      simp [h]

theorem reset_flag_base (st : ScalpState) (t : ℤ) (p : Option ℚ) (d : ℤ) :
    (scalpDailyReset (checkSignalOutcomes st t p).1 d).circuit_breaker_notified
      = (if st.last_signal_date = some d then st.circuit_breaker_notified else false) := by
  have ho := outcomes_fields st t p
  unfold scalpDailyReset
  split
  · next h =>
      rw [ho.2.1] at h
      rw [ho.2.2.1]
      simp [h]
  · next h =>
      rw [ho.2.1] at h
      simp [h]

theorem scalpStep_char (st : ScalpState) (d t : ℤ) (p : Option ℚ) (w : List Row) :
    (scalpStep st d t p w).1.last_signal_date = some d
    ∧ ((countSignalMsgs (scalpStep st d t p w).2 = 0
        ∧ (scalpStep st d t p w).1.signals_sent_today
            = (scalpDailyReset (checkSignalOutcomes st t p).1 d).signals_sent_today)
      ∨ (countSignalMsgs (scalpStep st d t p w).2 = 1
        ∧ (scalpStep st d t p w).1.signals_sent_today
            = (scalpDailyReset (checkSignalOutcomes st t p).1 d).signals_sent_today + 1
        ∧ (scalpDailyReset (checkSignalOutcomes st t p).1 d).signals_sent_today < 8)) := by
  have ho := outcomes_fields st t p
  have hdate := scalpDailyReset_date (checkSignalOutcomes st t p).1 d
  unfold scalpStep
  dsimp only
  split
  · exact ⟨hdate, Or.inl ⟨ho.2.2.2.1, rfl⟩⟩
  · next h8 =>
      split
      · split
        · exact ⟨hdate, Or.inl ⟨ho.2.2.2.1, rfl⟩⟩
        · refine ⟨hdate, Or.inl ⟨?_, rfl⟩⟩
          rw [countSignalMsgs_append, ho.2.2.2.1]
          rfl
      · split
        · refine ⟨hdate, Or.inr ⟨?_, rfl, by omega⟩⟩
          rw [countSignalMsgs_append, ho.2.2.2.1]
          rfl
        · exact ⟨hdate, Or.inl ⟨ho.2.2.2.1, rfl⟩⟩

theorem scalpRun_cap (d : ℤ) :
    ∀ (calls : List ScalpCall) (st : ScalpState),
    (∀ c ∈ calls, c.date = d) →
    countSignalMsgs (scalpRun st calls).2
      + min (if st.last_signal_date = some d then st.signals_sent_today else 0) 8 ≤ 8
  | [], st, _ => by
      simp only [scalpRun]
      have : countSignalMsgs [] = 0 := rfl
      omega
  | c :: cs, st, hall => by
      obtain ⟨cd, ct, cp, cw⟩ := c
      have hd : cd = d := hall _ (List.mem_cons_self _ _)
      subst hd
      have hch := scalpStep_char st cd ct cp cw
      have hbase := reset_sent_base st ct cp cd
      have hrest := scalpRun_cap cd cs (scalpStep st cd ct cp cw).1
        (fun c hc => hall c (List.mem_cons_of_mem _ hc))
      rw [if_pos hch.1] at hrest
      simp only [scalpRun, countSignalMsgs_append]
      set base := (if st.last_signal_date = some cd then st.signals_sent_today else 0) with hb
      rw [hbase] at hch
      rcases hch.2 with ⟨hm, hs⟩ | ⟨hm, hs, hlt⟩
      · rw [hs] at hrest
        omega
      · rw [hs] at hrest
        omega

theorem genStep_char (st : GenState) (d : ℤ) (h : ℕ) (w : List Row) :
    (genStep st d h w).1.last_signal_date = some d
    ∧ (((genStep st d h w).2 = none
        ∧ (genStep st d h w).1.daily_signal_count
            = (if st.last_signal_date = some d then st.daily_signal_count else 0))
      ∨ ((genStep st d h w).2.isSome = true
        ∧ (genStep st d h w).1.daily_signal_count
            = (if st.last_signal_date = some d then st.daily_signal_count else 0) + 1
        ∧ (if st.last_signal_date = some d then st.daily_signal_count else 0) < 6)) := by
  unfold genStep
  by_cases hd : st.last_signal_date = some d
  · simp only [if_pos hd]
    split
    · exact ⟨hd, Or.inl ⟨rfl, rfl⟩⟩
    · next h6 =>
        split
        · exact ⟨hd, Or.inl ⟨rfl, rfl⟩⟩
        · split
          · exact ⟨hd, Or.inr ⟨rfl, rfl, by omega⟩⟩
          · exact ⟨hd, Or.inl ⟨rfl, rfl⟩⟩
  · simp only [if_neg hd]
    split
    · next h6 => omega
    · split
      · exact ⟨rfl, Or.inl ⟨rfl, rfl⟩⟩
      · split
        · exact ⟨rfl, Or.inr ⟨rfl, rfl, by omega⟩⟩
        · exact ⟨rfl, Or.inl ⟨rfl, rfl⟩⟩

theorem genRun_cap (d : ℤ) :
    ∀ (calls : List (ℤ × ℕ × List Row)) (st : GenState),
    (∀ c ∈ calls, c.1 = d) →
    countEmits (genRun st calls).2
      + min (if st.last_signal_date = some d then st.daily_signal_count else 0) 6 ≤ 6
  | [], st, _ => by
      simp only [genRun]
      have : countEmits [] = 0 := rfl
      omega
  | c :: cs, st, hall => by
      obtain ⟨cd, ch, cw⟩ := c
      have hd : cd = d := hall _ (List.mem_cons_self _ _)
      subst hd
      have hch := genStep_char st cd ch cw
      have hrest := genRun_cap cd cs (genStep st cd ch cw).1
        (fun c hc => hall c (List.mem_cons_of_mem _ hc))
      rw [if_pos hch.1] at hrest
      have hcount : ∀ (o : Option SigType) (os : List (Option SigType)),
          countEmits (o :: os) = countEmits os + (if o.isSome then 1 else 0) := by
        intro o os
        simp [countEmits, List.countP_cons]
      simp only [genRun]
      rw [hcount]
      set base := (if st.last_signal_date = some cd then st.daily_signal_count else 0) with hb
      rcases hch.2 with ⟨hm, hs⟩ | ⟨hm, hs, hlt⟩
      · rw [hs] at hrest
        rw [hm]
        simp only [Option.isSome_none, Bool.false_eq_true, if_false]
        omega
      · rw [hs] at hrest
        rw [hm]
        simp only [if_true]
        omega

/-- A claim (C5).  Daily signal caps: within any single calendar day the
basic generator emits at most 6 signals and the scalping system at most 8;
once the stored daily count is at the cap an evaluation emits nothing; and
the counts are reset to 0 exactly at the date rollover (a call whose date
differs from the stored one behaves as from a zeroed counter), after which
emission is permitted again. -/
theorem daily_cap_C5 :
    (∀ (st : GenState) (calls : List (ℤ × ℕ × List Row)) (d : ℤ),
        (∀ c ∈ calls, c.1 = d) → countEmits (genRun st calls).2 ≤ 6)
    ∧ (∀ (st : GenState) (d : ℤ) (h : ℕ) (w : List Row),
        st.last_signal_date = some d → 6 ≤ st.daily_signal_count →
        (genStep st d h w).2 = none)
    ∧ (∀ (st : GenState) (d : ℤ) (h : ℕ) (w : List Row),
        st.last_signal_date ≠ some d →
        genStep st d h w = genStep ⟨0, some d⟩ d h w)
    ∧ (∀ (st : ScalpState) (calls : List ScalpCall) (d : ℤ),
        (∀ c ∈ calls, c.date = d) → countSignalMsgs (scalpRun st calls).2 ≤ 8)
    ∧ (∀ (st : ScalpState) (d t : ℤ) (p : Option ℚ) (w : List Row),
        8 ≤ (scalpDailyReset (checkSignalOutcomes st t p).1 d).signals_sent_today →
        countSignalMsgs (scalpStep st d t p w).2 = 0)
    ∧ (∀ (st : ScalpState) (d : ℤ), st.last_signal_date ≠ some d →
        (scalpDailyReset st d).signals_sent_today = 0
        ∧ (scalpDailyReset st d).last_signal_date = some d) := by
  refine ⟨?_, ?_, ?_, ?_, ?_, ?_⟩
  · intro st calls d hall
    have := genRun_cap d calls st hall
    omega
  · intro st d h w hd h6
    unfold genStep
    simp only [hd, if_pos, if_true]
    rw [if_pos h6]
  · intro st d h w hne
    unfold genStep
    rw [if_neg hne, if_pos rfl]
  · intro st calls d hall
    have := scalpRun_cap d calls st hall
    omega
  · intro st d t p w h8
    have ho := outcomes_fields st t p
    unfold scalpStep
    dsimp only
    rw [if_pos h8]
    exact ho.2.2.2.1
  · intro st d hne
    unfold scalpDailyReset
    rw [if_neg hne]
    exact ⟨rfl, rfl⟩

/-- Witness for C5: eight qualifying same-day calls of the basic generator
emit at most 6 signals, and the nine-call scalping trace emits at most
8. -/
theorem daily_cap_C5_witness :
    (∀ c ∈ genDemoCalls, c.1 = (0 : ℤ))
    ∧ countEmits (genRun ⟨0, none⟩ genDemoCalls).2 ≤ 6
    ∧ (∀ c ∈ scalpDemoCalls, c.date = (0 : ℤ))
    ∧ countSignalMsgs (scalpRun scalpInit scalpDemoCalls).2 ≤ 8 :=
  ⟨by decide, daily_cap_C5.1 ⟨0, none⟩ genDemoCalls 0 (by decide),
   by decide, daily_cap_C5.2.2.2.1 scalpInit scalpDemoCalls 0 (by decide)⟩

theorem scalpStep_cb (st : ScalpState) (d t : ℤ) (p : Option ℚ) (w : List Row) :
    countCbMsgs (scalpStep st d t p w).2 ≤ 1
    ∧ (1 ≤ countCbMsgs (scalpStep st d t p w).2 →
        (scalpStep st d t p w).1.circuit_breaker_notified = true)
    ∧ ((scalpDailyReset (checkSignalOutcomes st t p).1 d).circuit_breaker_notified = true →
        countCbMsgs (scalpStep st d t p w).2 = 0
        ∧ (scalpStep st d t p w).1.circuit_breaker_notified = true) := by
  have ho := outcomes_fields st t p
  have hz : countCbMsgs (checkSignalOutcomes st t p).2 = 0 := ho.2.2.2.2
  unfold scalpStep
  dsimp only
  split
  · exact ⟨by simp [hz], fun h1 => absurd h1 (by rw [hz]; omega), fun hf => ⟨hz, hf⟩⟩
  · split
    · split
      · next hn =>
          exact ⟨by simp [hz], fun h1 => absurd h1 (by rw [hz]; omega), fun hf => ⟨hz, hf⟩⟩
      · next hn =>
          have h1 : countCbMsgs ((checkSignalOutcomes st t p).2 ++ [Msg.circuitBreakerMsg]) = 1 := by
            rw [countCbMsgs_append, hz]
            rfl
          exact ⟨by rw [h1], fun _ => rfl, fun hf => absurd hf hn⟩
    · split
      · next sig heq =>
          have h0 : countCbMsgs ((checkSignalOutcomes st t p).2 ++ [Msg.signalMsg sig.type]) = 0 := by
            rw [countCbMsgs_append, hz]
            rfl
          exact ⟨by simp [h0], fun h1 => absurd h1 (by rw [h0]; omega), fun hf => ⟨h0, hf⟩⟩
      · next heq =>
          exact ⟨by simp [hz], fun h1 => absurd h1 (by rw [hz]; omega), fun hf => ⟨hz, hf⟩⟩

theorem scalpRun_cb_zero (d : ℤ) :
    ∀ (calls : List ScalpCall) (st : ScalpState),
    (∀ c ∈ calls, c.date = d) → st.last_signal_date = some d →
    st.circuit_breaker_notified = true →
    countCbMsgs (scalpRun st calls).2 = 0
  | [], _, _, _, _ => rfl
  | c :: cs, st, hall, hdt, hfl => by
      obtain ⟨cd, ct, cp, cw⟩ := c
      have hd : cd = d := hall _ (List.mem_cons_self _ _)
      subst hd
      have hcb := scalpStep_cb st cd ct cp cw
      have hbase := reset_flag_base st ct cp cd
      rw [if_pos hdt, hfl] at hbase
      have h3 := hcb.2.2 hbase
      have hch := scalpStep_char st cd ct cp cw
      simp only [scalpRun, countCbMsgs_append]
      rw [h3.1, scalpRun_cb_zero cd cs (scalpStep st cd ct cp cw).1
        (fun c hc => hall c (List.mem_cons_of_mem _ hc)) hch.1 h3.2]

theorem scalpRun_cb_le_one (d : ℤ) :
    ∀ (calls : List ScalpCall) (st : ScalpState),
    (∀ c ∈ calls, c.date = d) → countCbMsgs (scalpRun st calls).2 ≤ 1
  | [], st, _ => by
      have h : countCbMsgs (scalpRun st []).2 = 0 := rfl
      omega
  | c :: cs, st, hall => by
      obtain ⟨cd, ct, cp, cw⟩ := c
      have hd : cd = d := hall _ (List.mem_cons_self _ _)
      subst hd
      have hcb := scalpStep_cb st cd ct cp cw
      have hch := scalpStep_char st cd ct cp cw
      have htail : ∀ c ∈ cs, ScalpCall.date c = cd :=
        fun c hc => hall c (List.mem_cons_of_mem _ hc)
      simp only [scalpRun, countCbMsgs_append]
      by_cases h1 : 1 ≤ countCbMsgs (scalpStep st cd ct cp cw).2
      · have hz := scalpRun_cb_zero cd cs (scalpStep st cd ct cp cw).1 htail hch.1 (hcb.2.1 h1)
        omega
      · have hle := scalpRun_cb_le_one cd cs (scalpStep st cd ct cp cw).1 htail
        omega

/-- A claim (C6), corrected.  While `consecutive_losses` is at least 3
(after outcome processing and the daily rollover), no signal is emitted —
the breaker stands until a new day or a win resets the counter; but the
breaker's activation is notified at most once per *calendar day*, not once
per activation: the notification flag is cleared only at the daily
rollover, so a second activation on the same day (after a win reset) sends
no notification.  (The originally claimed re-issue after an intra-day reset
is refuted by the counterexample trace.) -/
theorem circuit_breaker_C6 :
    (∀ (st : ScalpState) (d t : ℤ) (p : Option ℚ) (w : List Row),
        3 ≤ (scalpDailyReset (checkSignalOutcomes st t p).1 d).consecutive_losses →
        countSignalMsgs (scalpStep st d t p w).2 = 0)
    ∧ (∀ (st : ScalpState) (calls : List ScalpCall) (d : ℤ),
        (∀ c ∈ calls, c.date = d) → countCbMsgs (scalpRun st calls).2 ≤ 1) := by
  constructor
  · intro st d t p w h3
    have ho := outcomes_fields st t p
    unfold scalpStep
    dsimp only
    by_cases h8 : 8 ≤ (scalpDailyReset (checkSignalOutcomes st t p).1 d).signals_sent_today
    · rw [if_pos h8]
      exact ho.2.2.2.1
    · rw [if_neg h8, if_pos h3]
      by_cases hn :
          (scalpDailyReset (checkSignalOutcomes st t p).1 d).circuit_breaker_notified = true
      · rw [if_pos hn]
        exact ho.2.2.2.1
      · rw [if_neg hn, countSignalMsgs_append, ho.2.2.2.1]
        rfl
  · intro st calls d hall
    exact scalpRun_cb_le_one d calls st hall

/-- Witness for the corrected C6: in the demonstration trace the breaker is
active before the last call (three fresh losses), which emits no signal,
and the whole same-day run carries at most one breaker notification. -/
theorem circuit_breaker_C6_witness :
    3 ≤ (scalpDailyReset
          (checkSignalOutcomes (scalpDemoTrace.getD 7 default).1 2200 (some 50)).1
          0).consecutive_losses
    ∧ countSignalMsgs (scalpStep (scalpDemoTrace.getD 7 default).1 0 2200 (some 50) []).2 = 0
    ∧ (∀ c ∈ scalpDemoCalls, c.date = (0 : ℤ))
    ∧ countCbMsgs (scalpRun scalpInit scalpDemoCalls).2 ≤ 1 :=
  ⟨by decide,
   circuit_breaker_C6.1 (scalpDemoTrace.getD 7 default).1 0 2200 (some 50) [] (by decide),
   by decide,
   circuit_breaker_C6.2 scalpInit scalpDemoCalls 0 (by decide)⟩

/-- Counterexample to C6 as stated.  In the demonstration trace the breaker
activates at call 5 (three losses, one notification), a win at call 6
resets the counter to 0, signals resume, and three further losses
re-activate the breaker at call 9 — but no second notification is sent
(the flag is only cleared at the daily rollover), so the whole trace
carries exactly one breaker notification for two activations. -/
theorem circuit_breaker_C6_counterexample :
    (scalpDemoTrace.getD 4 default).1.consecutive_losses = 3
    ∧ Msg.circuitBreakerMsg ∈ (scalpDemoTrace.getD 4 default).2
    ∧ (scalpDemoTrace.getD 5 default).1.consecutive_losses = 0
    ∧ countSignalMsgs (scalpDemoTrace.getD 5 default).2 = 1
    ∧ (scalpDemoTrace.getD 8 default).1.consecutive_losses = 3
    ∧ Msg.circuitBreakerMsg ∉ (scalpDemoTrace.getD 8 default).2
    ∧ countCbMsgs (scalpRun scalpInit scalpDemoCalls).2 = 1 := by decide

/-- A claim (C7), corrected.  A window shorter than 100 bars does NOT
produce a distinguishable error outcome: both scalping checks return the
very same plain no-signal triple `(false, 0, [])` that a normal zero-score
evaluation returns.  On any window the evaluation is total, the signal flag
holds exactly when the score reaches 4, and the score never exceeds the 7
conditions. -/
theorem scalping_insufficient_history_C7 :
    (∀ data : List Row, data.length < 100 →
        checkScalpingBuy data = (false, 0, []) ∧ checkScalpingSell data = (false, 0, []))
    ∧ (∀ data : List Row,
        ((checkScalpingBuy data).1 = decide (4 ≤ (checkScalpingBuy data).2.1)
          ∧ (checkScalpingBuy data).2.1 ≤ 7)
        ∧ ((checkScalpingSell data).1 = decide (4 ≤ (checkScalpingSell data).2.1)
          ∧ (checkScalpingSell data).2.1 ≤ 7)) := by
  constructor
  · intro data h
    constructor
    · unfold checkScalpingBuy
      rw [if_pos h]
    · unfold checkScalpingSell
      rw [if_pos h]
  · intro data
    constructor
    · by_cases h : data.length < 100
      · unfold checkScalpingBuy
        rw [if_pos h]
        exact ⟨rfl, by decide⟩
      · unfold checkScalpingBuy
        rw [if_neg h]
        dsimp only
        refine ⟨rfl, ?_⟩
        exact le_trans (List.countP_le_length _) (by simp)
    · by_cases h : data.length < 100
      · unfold checkScalpingSell
        rw [if_pos h]
        exact ⟨rfl, by decide⟩
      · unfold checkScalpingSell
        rw [if_neg h]
        dsimp only
        refine ⟨rfl, ?_⟩
        exact le_trans (List.countP_le_length _) (by simp)

/-- Witness for the corrected C7: a one-row window yields the plain
no-signal triple, and on the 100-row qualifying window the flag agrees with
the score threshold and the score is within bound. -/
theorem scalping_insufficient_history_C7_witness :
    ([scalpBaseRow].length < 100
      ∧ checkScalpingBuy [scalpBaseRow] = (false, 0, [])
      ∧ checkScalpingSell [scalpBaseRow] = (false, 0, []))
    ∧ ((checkScalpingBuy scalpBuyW).1 = decide (4 ≤ (checkScalpingBuy scalpBuyW).2.1)
      ∧ (checkScalpingBuy scalpBuyW).2.1 ≤ 7) :=
  ⟨⟨by decide, scalping_insufficient_history_C7.1 [scalpBaseRow] (by decide)⟩,
   (scalping_insufficient_history_C7.2 scalpBuyW).1⟩

/-- Counterexample to C7 as stated: the result of the scalping BUY check on
an empty window is literally EQUAL to its result on a 100-bar window of
neutral rows on which every condition genuinely evaluates to false — the
short-window outcome is indistinguishable from a normal zero-score
result. -/
theorem scalping_insufficient_history_C7_counterexample :
    checkScalpingBuy [] = (false, 0, [])
    ∧ (List.replicate 100 scalpBaseRow).length = 100
    ∧ checkScalpingBuy (List.replicate 100 scalpBaseRow) = (false, 0, [])
    ∧ checkScalpingBuy [] = checkScalpingBuy (List.replicate 100 scalpBaseRow) := by decide

theorem zipWith_sub_self_replicate (c : ℚ) (m : ℕ) :
    List.zipWith (fun a b => num (a - b)) (List.replicate m c) (List.replicate m c)
      = List.replicate m (num 0) := by
  induction m with
  | zero => rfl
  | succ k ih => simp only [List.replicate_succ, List.zipWith_cons_cons, sub_self, ih]

theorem dropLast_replicate_self (c : ℚ) (m : ℕ) :
    (List.replicate (m + 1) c).dropLast = List.replicate m c := by
  rw [List.replicate_succ', List.dropLast_concat]

theorem deltas_replicate (c : ℚ) (m : ℕ) :
    deltas (List.replicate (m + 1) c) = nan :: List.replicate m (num 0) := by
  rw [List.replicate_succ]
  simp only [deltas]
  rw [← List.replicate_succ, dropLast_replicate_self, zipWith_sub_self_replicate]

theorem gainsOf_replicate (c : ℚ) (m : ℕ) :
    gainsOf (List.replicate m c) = List.replicate m (num 0) := by
  cases m with
  | zero => rfl
  | succ k =>
      rw [gainsOf, deltas_replicate, List.replicate_succ]
      simp only [List.map_cons, List.map_replicate, ite_self]
      rfl

theorem lossesOf_replicate (c : ℚ) (m : ℕ) :
    lossesOf (List.replicate m c) = List.replicate m (num 0) := by
  cases m with
  | zero => rfl
  | succ k =>
      rw [lossesOf, deltas_replicate, List.replicate_succ]
      simp only [List.map_cons, List.map_replicate]
      have h1 : (if flt nan (num 0) then fneg nan else num 0) = num 0 := rfl
      have h2 : (if flt (num 0) (num 0) then fneg (num 0) else num 0) = num 0 := by decide
      rw [h1, h2]

theorem sumF_replicate_zero (m : ℕ) : sumF (List.replicate m (num 0)) = num 0 := by
  induction m with
  | zero => rfl
  | succ k ih =>
      rw [List.replicate_succ, sumF, List.foldr_cons, ← sumF, ih]
      decide

theorem lastK_replicate {α : Type _} (k m : ℕ) (a : α) (h : k ≤ m) :
    lastK k (List.replicate m a) = List.replicate k a := by
  rw [lastK, List.length_replicate, List.drop_replicate]
  congr 1
  omega

theorem rollingMeanF_replicate_zero (p m : ℕ) (hp : 0 < p) (h : p ≤ m) :
    rollingMeanF p (List.replicate m (num 0)) = num 0 := by
  rw [rollingMeanF, if_neg (by rw [List.length_replicate]; omega),
    lastK_replicate p m _ h, sumF_replicate_zero]
  simp only [fdiv]
  rw [if_neg (show (p : ℚ) ≠ 0 from Nat.cast_ne_zero.mpr (by omega))]
  rw [zero_div]

theorem calculate_rsi_replicate (c : ℚ) (m : ℕ) :
    calculate_rsi 14 (List.replicate m c) = nan := by
  rw [calculate_rsi]
  rw [gainsOf_replicate, lossesOf_replicate]
  by_cases h : m < 14
  · rw [rollingMeanF, if_pos (by rw [List.length_replicate]; exact h)]
    rfl
  · rw [rollingMeanF_replicate_zero 14 m (by omega) (by omega)]
    decide

/-- A claim (C8), corrected.  The RSI follows the claimed
`100 - 100/(1 + avg_gain/avg_loss)` formula whenever the division is
defined, and a zero average loss yields `100` only when the average gain is
nonzero (the quotient is then an infinity and the correction term
vanishes).  A fully flat window — also a monotonically non-decreasing close
series with `avg_loss = 0` — instead divides `0/0` into `NaN`, so the RSI
is NaN there, not the defined numeric value the claim asserts. -/
theorem rsi_zero_loss_C8 :
    (∀ (period : ℕ) (closes : List ℚ) (g l : ℚ),
        rollingMeanF period (gainsOf closes) = num g →
        rollingMeanF period (lossesOf closes) = num l →
        l ≠ 0 → 1 + g / l ≠ 0 →
        calculate_rsi period closes = num (100 - 100 / (1 + g / l)))
    ∧ (∀ (period : ℕ) (closes : List ℚ) (g : ℚ),
        rollingMeanF period (gainsOf closes) = num g →
        rollingMeanF period (lossesOf closes) = num 0 →
        g ≠ 0 →
        calculate_rsi period closes = num 100)
    ∧ (∀ (c : ℚ) (n : ℕ), 15 ≤ n → calculate_rsi 14 (List.replicate n c) = nan) := by
  refine ⟨?_, ?_, ?_⟩
  · intro period closes g l hg hl hlne hne
    rw [calculate_rsi, hg, hl]
    have h1 : fdiv (num g) (num l) = num (g / l) := by
      simp only [fdiv]
      rw [if_neg hlne]
    rw [h1]
    have h2 : fadd (num 1) (num (g / l)) = num (1 + g / l) := rfl
    rw [h2]
    have h3 : fdiv (num 100) (num (1 + g / l)) = num (100 / (1 + g / l)) := by
      simp only [fdiv]
      rw [if_neg hne]
    rw [h3]
    show num (100 + -(100 / (1 + g / l))) = num (100 - 100 / (1 + g / l))
    rw [← sub_eq_add_neg]
  · intro period closes g hg hl hne
    rw [calculate_rsi, hg, hl]
    have h1 : fdiv (num g) (num 0) = if 0 < g then pinf else ninf := by
      simp only [fdiv]
      rw [if_pos trivial, if_neg hne]
    rw [h1]
    by_cases h0 : 0 < g
    · rw [if_pos h0]
      decide
    · rw [if_neg h0]
      decide
  · intro c n h
    exact calculate_rsi_replicate c n

/-- Witness for the corrected C8: a mixed 4-bar series hits the generic
formula, the strictly ascending 15-bar series `asc15` has average loss `0`
with average gain `1` and RSI exactly `100`, and a flat 15-bar window falls
under the NaN conjunct. -/
theorem rsi_zero_loss_C8_witness :
    (rollingMeanF 2 (gainsOf [(1 : ℚ), 2, 1, 3]) = num 1
      ∧ rollingMeanF 2 (lossesOf [(1 : ℚ), 2, 1, 3]) = num (1 / 2)
      ∧ (1 / 2 : ℚ) ≠ 0 ∧ (1 + 1 / (1 / 2) : ℚ) ≠ 0
      ∧ calculate_rsi 2 [(1 : ℚ), 2, 1, 3] = num (100 - 100 / (1 + 1 / (1 / 2))))
    ∧ (rollingMeanF 14 (gainsOf asc15) = num 1
      ∧ rollingMeanF 14 (lossesOf asc15) = num 0
      ∧ (1 : ℚ) ≠ 0
      ∧ calculate_rsi 14 asc15 = num 100)
    ∧ (15 ≤ 15 ∧ calculate_rsi 14 (List.replicate 15 (5 : ℚ)) = nan) :=
  ⟨⟨by decide, by decide, by decide, by decide,
     rsi_zero_loss_C8.1 2 [(1 : ℚ), 2, 1, 3] 1 (1 / 2)
       (by decide) (by decide) (by decide) (by decide)⟩,
   ⟨by decide, by decide, by decide,
     rsi_zero_loss_C8.2.1 14 asc15 1 (by decide) (by decide) (by decide)⟩,
   ⟨by decide, rsi_zero_loss_C8.2.2 5 15 (by decide)⟩⟩

/-- Counterexample to C8 as stated: the flat 15-bar series has average loss
exactly `0` (it is non-decreasing), yet its RSI is NaN, not `100` — the
`0/0` the source leaves to floating point. -/
theorem rsi_zero_loss_C8_counterexample :
    rollingMeanF 14 (lossesOf (List.replicate 15 (100 : ℚ))) = num 0
    ∧ calculate_rsi 14 (List.replicate 15 (100 : ℚ)) = nan
    ∧ calculate_rsi 14 (List.replicate 15 (100 : ℚ)) ≠ num 100 := by decide

theorem foldl_fix {α β : Type _} (f : α → β → α) (a : β) (x : α) (hf : f x a = x) :
    ∀ m, (List.replicate m a).foldl f x = x := by
  intro m
  induction m with
  | zero => rfl
  | succ k ih => rw [List.replicate_succ, List.foldl_cons, hf, ih]

theorem getD_map_range {α : Type _} [Inhabited α] (f : ℕ → α) (L j : ℕ) (h : j < L) :
    ((List.range L).map f).getD j default = f j := by
  rw [List.getD_eq_getElem?_getD, List.getElem?_map, List.getElem?_range h]
  rfl

theorem ilocNeg_map_range {α : Type _} [Inhabited α] (f : ℕ → α) (L k : ℕ)
    (h1 : 1 ≤ k) (hL : 1 ≤ L) :
    ilocNeg ((List.range L).map f) k = f (L - k) := by
  rw [ilocNeg, List.length_map, List.length_range]
  exact getD_map_range f L (L - k) (by omega)

theorem getD_replicate_any {α : Type _} (n i : ℕ) (a d : α) (h : i < n) :
    (List.replicate n a).getD i d = a := by
  rw [List.getD_eq_getElem?_getD, List.getElem?_replicate, if_pos h]
  rfl

theorem fsub_num_self (a : ℚ) : fsub (num a) (num a) = num 0 := by
  show num (a + -a) = num 0
  rw [add_neg_cancel]

theorem emaLastQ_replicate (span : ℕ) (c : ℚ) (m : ℕ) :
    emaLastQ span (List.replicate (m + 1) c) = c := by
  rw [List.replicate_succ]
  simp only [emaLastQ]
  exact foldl_fix _ c c (by ring) m

theorem macdAtQ_replicate (n i : ℕ) (c : ℚ) (hn : 0 < n) :
    macdAtQ (List.replicate n c) i = 0 := by
  rw [macdAtQ, List.take_replicate]
  obtain ⟨m, hm⟩ : ∃ m, (i + 1) ⊓ n = m + 1 := ⟨(i + 1) ⊓ n - 1, by omega⟩
  rw [hm, emaLastQ_replicate, emaLastQ_replicate, sub_self]

theorem signalAtQ_replicate (n i : ℕ) (c : ℚ) (hn : 0 < n) :
    signalAtQ (List.replicate n c) i = 0 := by
  rw [signalAtQ]
  have h1 : (List.range (i + 1)).map (macdAtQ (List.replicate n c))
      = List.replicate (i + 1) (0 : ℚ) := by
    refine List.eq_replicate.mpr ⟨by simp, ?_⟩
    intro b hb
    obtain ⟨j, hj, rfl⟩ := List.mem_map.mp hb
    exact macdAtQ_replicate n j c hn
  rw [h1, emaLastQ_replicate]

theorem rsiAt_replicate (n i : ℕ) (c : ℚ) : rsiAt (List.replicate n c) i = nan := by
  rw [rsiAt, List.take_replicate]
  exact calculate_rsi_replicate c _

theorem rollingMinLast_replicate (k m : ℕ) (a : ℚ) (hk : 0 < k) :
    rollingMinLast k (List.replicate m a) = if m < k then nan else num a := by
  rw [rollingMinLast, List.length_replicate]
  by_cases h : m < k
  · rw [if_pos h, if_pos h]
  · rw [if_neg h, if_neg h, lastK_replicate k m a (by omega)]
    obtain ⟨j, hj⟩ : ∃ j, k = j + 1 := ⟨k - 1, by omega⟩
    rw [hj, List.replicate_succ]
    show num ((List.replicate j a).foldl min a) = num a
    rw [foldl_fix min a a (min_self a) j]

theorem rollingMaxLast_replicate (k m : ℕ) (a : ℚ) (hk : 0 < k) :
    rollingMaxLast k (List.replicate m a) = if m < k then nan else num a := by
  rw [rollingMaxLast, List.length_replicate]
  by_cases h : m < k
  · rw [if_pos h, if_pos h]
  · rw [if_neg h, if_neg h, lastK_replicate k m a (by omega)]
    obtain ⟨j, hj⟩ : ∃ j, k = j + 1 := ⟨k - 1, by omega⟩
    rw [hj, List.replicate_succ]
    show num ((List.replicate j a).foldl max a) = num a
    rw [foldl_fix max a a (max_self a) j]

theorem stochKAt_replicate (n i : ℕ) (c : ℚ) (hn : 0 < n) (hi : i < n) :
    stochKAt (List.replicate n c) (List.replicate n c) (List.replicate n c) i = nan := by
  rw [stochKAt]
  rw [List.take_replicate, rollingMinLast_replicate 14 _ c (by omega),
    rollingMaxLast_replicate 14 _ c (by omega)]
  by_cases h : (i + 1) ⊓ n < 14
  · rw [if_pos h]
    rfl
  · rw [if_neg h, getD_replicate_any n i c 0 hi, fsub_num_self]
    decide

theorem stochDAt_replicate (n i : ℕ) (c : ℚ) (hn : 0 < n) (hi : i < n) :
    stochDAt (List.replicate n c) (List.replicate n c) (List.replicate n c) i = nan := by
  rw [stochDAt]
  have h1 : (List.range (i + 1)).map
        (stochKAt (List.replicate n c) (List.replicate n c) (List.replicate n c))
      = List.replicate (i + 1) nan := by
    refine List.eq_replicate.mpr ⟨by simp, ?_⟩
    intro b hb
    obtain ⟨j, hj, rfl⟩ := List.mem_map.mp hb
    have hji := List.mem_range.mp hj
    exact stochKAt_replicate n j c hn (by omega)
  rw [h1, rollingMeanF, List.length_replicate]
  by_cases h : i + 1 < 3
  · rw [if_pos h]
  · rw [if_neg h, lastK_replicate 3 (i + 1) nan (by omega)]
    decide

theorem meanQ_replicate (m : ℕ) (a : ℚ) (hm : 0 < m) :
    meanQ (List.replicate m a) = a := by
  rw [meanQ, List.sum_replicate, List.length_replicate, nsmul_eq_mul]
  exact mul_div_cancel_left₀ a (Nat.cast_ne_zero.mpr (by omega))

theorem sampleVar_replicate (m : ℕ) (a : ℚ) (hm : 0 < m) :
    sampleVar (List.replicate m a) = 0 := by
  rw [sampleVar]
  simp only [meanQ_replicate m a hm, sub_self, List.map_replicate]
  simp [List.sum_replicate]

theorem bbLowerAt_replicate (sqrtP : ℚ → ℚ) (hsq : sqrtP 0 = 0) (n i : ℕ) (c : ℚ)
    (h19 : 19 ≤ i) (hin : i < n) :
    bbLowerAt sqrtP (List.replicate n c) i = num c := by
  rw [bbLowerAt]
  dsimp only
  rw [List.take_replicate, List.length_replicate]
  have hm : (i + 1) ⊓ n = i + 1 := by omega
  rw [hm, if_neg (by omega), lastK_replicate 20 (i + 1) c (by omega),
    meanQ_replicate 20 c (by omega), sampleVar_replicate 20 c (by omega), hsq]
  norm_num

theorem bbUpperAt_replicate (sqrtP : ℚ → ℚ) (hsq : sqrtP 0 = 0) (n i : ℕ) (c : ℚ)
    (h19 : 19 ≤ i) (hin : i < n) :
    bbUpperAt sqrtP (List.replicate n c) i = num c := by
  rw [bbUpperAt]
  dsimp only
  rw [List.take_replicate, List.length_replicate]
  have hm : (i + 1) ⊓ n = i + 1 := by omega
  rw [hm, if_neg (by omega), lastK_replicate 20 (i + 1) c (by omega),
    meanQ_replicate 20 c (by omega), sampleVar_replicate 20 c (by omega), hsq]
  norm_num

theorem bbLowerAt_replicate_nan (sqrtP : ℚ → ℚ) (n i : ℕ) (c : ℚ) (h : i < 19) :
    bbLowerAt sqrtP (List.replicate n c) i = nan := by
  rw [bbLowerAt]
  dsimp only
  rw [List.take_replicate, List.length_replicate, if_pos (by omega)]

theorem bbUpperAt_replicate_nan (sqrtP : ℚ → ℚ) (n i : ℕ) (c : ℚ) (h : i < 19) :
    bbUpperAt sqrtP (List.replicate n c) i = nan := by
  rw [bbUpperAt]
  dsimp only
  rw [List.take_replicate, List.length_replicate, if_pos (by omega)]

theorem flatBars_map_close (n : ℕ) (c v : ℚ) :
    (flatBars n c v).map Bar.close = List.replicate n c := by
  rw [flatBars, List.map_replicate]
  rfl

theorem flatBars_map_low (n : ℕ) (c v : ℚ) :
    (flatBars n c v).map Bar.low = List.replicate n c := by
  rw [flatBars, List.map_replicate]
  rfl

theorem flatBars_map_high (n : ℕ) (c v : ℚ) :
    (flatBars n c v).map Bar.high = List.replicate n c := by
  rw [flatBars, List.map_replicate]
  rfl

theorem flat_row_base (sqrtP : ℚ → ℚ) (n i : ℕ) (c v : ℚ) (hin : i < n) :
    (augmentAt sqrtP (flatBars n c v) i).opn = c
    ∧ (augmentAt sqrtP (flatBars n c v) i).high = c
    ∧ (augmentAt sqrtP (flatBars n c v) i).low = c
    ∧ (augmentAt sqrtP (flatBars n c v) i).close = c
    ∧ (augmentAt sqrtP (flatBars n c v) i).volume = v := by
  have hb : (flatBars n c v).getD i default = flatBar c v := by
    rw [flatBars]
    exact getD_replicate_any n i _ _ hin
  refine ⟨?_, ?_, ?_, ?_, ?_⟩
  · show ((flatBars n c v).getD i default).opn = c
    rw [hb]
    rfl
  · show ((flatBars n c v).getD i default).high = c
    rw [hb]
    rfl
  · show ((flatBars n c v).getD i default).low = c
    rw [hb]
    rfl
  · show ((flatBars n c v).getD i default).close = c
    rw [hb]
    rfl
  · show ((flatBars n c v).getD i default).volume = v
    rw [hb]
    rfl

theorem flat_row_ind (sqrtP : ℚ → ℚ) (n i : ℕ) (c v : ℚ) (hn : 0 < n) (hin : i < n) :
    (augmentAt sqrtP (flatBars n c v) i).rsi = nan
    ∧ (augmentAt sqrtP (flatBars n c v) i).macd = num 0
    ∧ (augmentAt sqrtP (flatBars n c v) i).macd_signal = num 0
    ∧ (augmentAt sqrtP (flatBars n c v) i).stoch_k = nan
    ∧ (augmentAt sqrtP (flatBars n c v) i).stoch_d = nan := by
  have hc : (flatBars n c v).map Bar.close = List.replicate n c := flatBars_map_close n c v
  have hl : (flatBars n c v).map Bar.low = List.replicate n c := flatBars_map_low n c v
  have hh : (flatBars n c v).map Bar.high = List.replicate n c := flatBars_map_high n c v
  refine ⟨?_, ?_, ?_, ?_, ?_⟩
  · show rsiAt ((flatBars n c v).map Bar.close) i = nan
    rw [hc]
    exact rsiAt_replicate n i c
  · show num (macdAtQ ((flatBars n c v).map Bar.close) i) = num 0
    rw [hc, macdAtQ_replicate n i c hn]
  · show num (signalAtQ ((flatBars n c v).map Bar.close) i) = num 0
    rw [hc, signalAtQ_replicate n i c hn]
  · show stochKAt ((flatBars n c v).map Bar.low) ((flatBars n c v).map Bar.high)
        ((flatBars n c v).map Bar.close) i = nan
    rw [hl, hh, hc]
    exact stochKAt_replicate n i c hn hin
  · show stochDAt ((flatBars n c v).map Bar.low) ((flatBars n c v).map Bar.high)
        ((flatBars n c v).map Bar.close) i = nan
    rw [hl, hh, hc]
    exact stochDAt_replicate n i c hn hin

theorem flat_row_bb (sqrtP : ℚ → ℚ) (hsq : sqrtP 0 = 0) (n i : ℕ) (c v : ℚ)
    (h19 : 19 ≤ i) (hin : i < n) :
    (augmentAt sqrtP (flatBars n c v) i).bb_lower = num c
    ∧ (augmentAt sqrtP (flatBars n c v) i).bb_upper = num c := by
  have hc := flatBars_map_close n c v
  constructor
  · show bbLowerAt sqrtP ((flatBars n c v).map Bar.close) i = num c
    rw [hc]
    exact bbLowerAt_replicate sqrtP hsq n i c h19 hin
  · show bbUpperAt sqrtP ((flatBars n c v).map Bar.close) i = num c
    rw [hc]
    exact bbUpperAt_replicate sqrtP hsq n i c h19 hin

theorem flat_row_bb_nan (sqrtP : ℚ → ℚ) (n i : ℕ) (c v : ℚ) (h : i < 19) :
    (augmentAt sqrtP (flatBars n c v) i).bb_lower = nan
    ∧ (augmentAt sqrtP (flatBars n c v) i).bb_upper = nan := by
  have hc := flatBars_map_close n c v
  constructor
  · show bbLowerAt sqrtP ((flatBars n c v).map Bar.close) i = nan
    rw [hc]
    exact bbLowerAt_replicate_nan sqrtP n i c h
  · show bbUpperAt sqrtP ((flatBars n c v).map Bar.close) i = nan
    rw [hc]
    exact bbUpperAt_replicate_nan sqrtP n i c h

theorem flat_prefix_volumes (sqrtP : ℚ → ℚ) (c v : ℚ) (L : ℕ) (hL : L ≤ 200) :
    ((List.range L).map (augmentAt sqrtP (flatBars 200 c v))).map Row.volume
      = List.replicate L v := by
  rw [List.map_map]
  refine List.eq_replicate_iff.mpr ⟨by simp, ?_⟩
  intro b hb
  obtain ⟨j, hj, rfl⟩ := List.mem_map.mp hb
  have hjL := List.mem_range.mp hj
  exact (flat_row_base sqrtP 200 j c v (by omega)).2.2.2.2

theorem flat_prefix_lows (sqrtP : ℚ → ℚ) (c v : ℚ) (L : ℕ) (hL : L ≤ 200) :
    ((List.range L).map (augmentAt sqrtP (flatBars 200 c v))).map Row.low
      = List.replicate L c := by
  rw [List.map_map]
  refine List.eq_replicate_iff.mpr ⟨by simp, ?_⟩
  intro b hb
  obtain ⟨j, hj, rfl⟩ := List.mem_map.mp hb
  have hjL := List.mem_range.mp hj
  exact (flat_row_base sqrtP 200 j c v (by omega)).2.2.1

theorem flat_prefix_highs (sqrtP : ℚ → ℚ) (c v : ℚ) (L : ℕ) (hL : L ≤ 200) :
    ((List.range L).map (augmentAt sqrtP (flatBars 200 c v))).map Row.high
      = List.replicate L c := by
  rw [List.map_map]
  refine List.eq_replicate_iff.mpr ⟨by simp, ?_⟩
  intro b hb
  obtain ⟨j, hj, rfl⟩ := List.mem_map.mp hb
  have hjL := List.mem_range.mp hj
  exact (flat_row_base sqrtP 200 j c v (by omega)).2.1

theorem range_split (a b : ℕ) :
    List.range (a + b) = List.range' 0 a ++ List.range' a b := by
  rw [List.range_eq_range']
  have h := List.range'_append 0 a b 1
  rw [show 0 + 1 * a = a from by omega] at h
  rw [show b + a = a + b from by omega] at h
  exact h.symm

theorem lastK_map_range {α : Type _} (g : ℕ → α) (L k : ℕ) (hk : k ≤ L) :
    lastK k ((List.range L).map g) = (List.range' (L - k) k).map g := by
  rw [lastK, List.length_map, List.length_range]
  obtain ⟨a, rfl⟩ : ∃ a, L = a + k := ⟨L - k, by omega⟩
  rw [range_split a k, List.map_append, show a + k - k = a from by omega,
    List.drop_left' (by simp)]

theorem rollingMeanQF_replicate (p m : ℕ) (a : ℚ) (hp : 0 < p) (h : p ≤ m) :
    rollingMeanQF p (List.replicate m a) = num a := by
  rw [rollingMeanQF, List.length_replicate, if_neg (by omega),
    lastK_replicate p m a h, meanQ_replicate p a hp]

theorem rollingMeanQF_replicate_nan (p m : ℕ) (a : ℚ) (h : m < p) :
    rollingMeanQF p (List.replicate m a) = nan := by
  rw [rollingMeanQF, List.length_replicate, if_pos h]

theorem flat_bbwidth_mean (sqrtP : ℚ → ℚ) (hsq : sqrtP 0 = 0) (c v : ℚ) (L : ℕ)
    (h39 : 39 ≤ L) (h200 : L ≤ 200) :
    rollingMeanF 20 (((List.range L).map (augmentAt sqrtP (flatBars 200 c v))).map
      (fun r => fsub r.bb_upper r.bb_lower)) = num 0 := by
  rw [List.map_map, rollingMeanF,
    if_neg (by simp only [List.length_map, List.length_range]; omega)]
  have hlast : lastK 20 ((List.range L).map
        ((fun r => fsub r.bb_upper r.bb_lower) ∘ augmentAt sqrtP (flatBars 200 c v)))
      = List.replicate 20 (num 0) := by
    rw [lastK_map_range _ L 20 (by omega)]
    refine List.eq_replicate_iff.mpr ⟨by simp, ?_⟩
    intro b hb
    obtain ⟨j, hj, rfl⟩ := List.mem_map.mp hb
    have hjb := List.mem_range'_1.mp hj
    show fsub (augmentAt sqrtP (flatBars 200 c v) j).bb_upper
        (augmentAt sqrtP (flatBars 200 c v) j).bb_lower = num 0
    rw [(flat_row_bb sqrtP hsq 200 j c v (by omega) (by omega)).1,
      (flat_row_bb sqrtP hsq 200 j c v (by omega) (by omega)).2, fsub_num_self]
  rw [hlast, sumF_replicate_zero]
  decide

theorem rollingMinSeries_replicate (L : ℕ) (c : ℚ) :
    rollingMinSeries 10 (List.replicate L c)
      = (List.range L).map (fun i => if i < 9 then nan else num c) := by
  rw [rollingMinSeries, List.length_replicate]
  refine List.map_congr_left ?_
  intro i hi
  have hiL := List.mem_range.mp hi
  rw [List.take_replicate, rollingMinLast_replicate 10 _ c (by omega)]
  by_cases h : i < 9
  · rw [if_pos (by omega), if_pos h]
  · rw [if_neg (by omega), if_neg h]

theorem rollingMaxSeries_replicate (L : ℕ) (c : ℚ) :
    rollingMaxSeries 10 (List.replicate L c)
      = (List.range L).map (fun i => if i < 9 then nan else num c) := by
  rw [rollingMaxSeries, List.length_replicate]
  refine List.map_congr_left ?_
  intro i hi
  have hiL := List.mem_range.mp hi
  rw [List.take_replicate, rollingMaxLast_replicate 10 _ c (by omega)]
  by_cases h : i < 9
  · rw [if_pos (by omega), if_pos h]
  · rw [if_neg (by omega), if_neg h]

theorem flat_series_split (L : ℕ) (c : ℚ) (h : 9 ≤ L) :
    (List.range L).map (fun i => if i < 9 then nan else num c)
      = List.replicate 9 nan ++ List.replicate (L - 9) (num c) := by
  obtain ⟨b, rfl⟩ : ∃ b, L = 9 + b := ⟨L - 9, by omega⟩
  rw [range_split 9 b, List.map_append, show 9 + b - 9 = b from by omega]
  have h1 : (List.range' 0 9).map (fun i => if i < 9 then nan else num c)
      = List.replicate 9 nan := by
    refine List.eq_replicate_iff.mpr ⟨by simp, ?_⟩
    intro x hx
    obtain ⟨j, hj, rfl⟩ := List.mem_map.mp hx
    have hjb := List.mem_range'_1.mp hj
    rw [if_pos (by omega)]
  have h2 : (List.range' 9 b).map (fun i => if i < 9 then nan else num c)
      = List.replicate b (num c) := by
    refine List.eq_replicate_iff.mpr ⟨by simp, ?_⟩
    intro x hx
    obtain ⟨j, hj, rfl⟩ := List.mem_map.mp hx
    have hjb := List.mem_range'_1.mp hj
    rw [if_neg (by omega)]
  rw [h1, h2]

theorem dedupAux_nil (f : ℕ) : dedupAux f [] = [] := by
  cases f <;> rfl

theorem filter_ne_replicate_eq {α : Type _} [DecidableEq α] (m : ℕ) (a : α) :
    List.filter (· ≠ a) (List.replicate m a) = [] := by
  induction m with
  | zero => rfl
  | succ k ih =>
      rw [List.replicate_succ, List.filter_cons]
      simp [ih]

theorem filter_ne_replicate_keep {α : Type _} [DecidableEq α] (m : ℕ) (a b : α) (h : a ≠ b) :
    List.filter (· ≠ b) (List.replicate m a) = List.replicate m a := by
  induction m with
  | zero => rfl
  | succ k ih =>
      rw [List.replicate_succ, List.filter_cons]
      simp [ih, h]

theorem dedupFirst_flat (K : ℕ) (c : ℚ) :
    dedupFirst (List.replicate 9 nan ++ List.replicate (K + 1) (num c)) = [nan, num c] := by
  rw [dedupFirst, List.length_append, List.length_replicate, List.length_replicate,
    show (9 : ℕ) + (K + 1) = (K + 9) + 1 from by omega]
  simp only [dedupAux]
  rw [filter_ne_replicate_keep K (num c) nan (by simp),
    filter_ne_replicate_eq K (num c), dedupAux_nil]

theorem flat_buy_one (sqrtP : ℚ → ℚ) (c v : ℚ) (hsq : sqrtP 0 = 0) (hc : 0 < c) (hv : 0 ≤ v)
    (L : ℕ) (h20 : 20 ≤ L) (h200 : L ≤ 200) :
    buyScore ((List.range L).map (augmentAt sqrtP (flatBars 200 c v))) = 1 := by
  rw [buyScore]
  rw [ilocNeg_map_range _ L 1 (by omega) (by omega),
    ilocNeg_map_range _ L 2 (by omega) (by omega)]
  have hA1 := flat_row_base sqrtP 200 (L - 1) c v (by omega)
  have hB1 := flat_row_ind sqrtP 200 (L - 1) c v (by omega) (by omega)
  have hB2 := flat_row_ind sqrtP 200 (L - 2) c v (by omega) (by omega)
  have hC1 := flat_row_bb sqrtP hsq 200 (L - 1) c v (by omega) (by omega)
  simp only [hA1, hB1, hB2, hC1]
  rw [flat_prefix_volumes sqrtP c v L h200, rollingMeanQF_replicate 10 L v (by omega) (by omega)]
  have e1 : flt nan (num 40) = false := rfl
  have e2 : fle (num c) (fmul (num c) (num (101 / 100))) = true := by
    show decide (c ≤ c * (101 / 100)) = true
    exact decide_eq_true (by linarith)
  have e3 : flt (num 0) (num 0) = false := by decide
  have e4 : flt nan (num 30) = false := rfl
  have e5 : flt (fmul (num v) (num (6 / 5))) (num v) = false := by
    show decide (v * (6 / 5) < v) = false
    exact decide_eq_false (by linarith)
  rw [e1, e2, e3, e4, e5]
  simp only [Bool.false_and]
  decide

theorem flat_sell_one (sqrtP : ℚ → ℚ) (c v : ℚ) (hsq : sqrtP 0 = 0) (hc : 0 < c) (hv : 0 ≤ v)
    (L : ℕ) (h20 : 20 ≤ L) (h200 : L ≤ 200) :
    sellScore ((List.range L).map (augmentAt sqrtP (flatBars 200 c v))) = 1 := by
  rw [sellScore]
  rw [ilocNeg_map_range _ L 1 (by omega) (by omega),
    ilocNeg_map_range _ L 2 (by omega) (by omega)]
  have hA1 := flat_row_base sqrtP 200 (L - 1) c v (by omega)
  have hB1 := flat_row_ind sqrtP 200 (L - 1) c v (by omega) (by omega)
  have hB2 := flat_row_ind sqrtP 200 (L - 2) c v (by omega) (by omega)
  have hC1 := flat_row_bb sqrtP hsq 200 (L - 1) c v (by omega) (by omega)
  simp only [hA1, hB1, hB2, hC1]
  rw [flat_prefix_volumes sqrtP c v L h200, rollingMeanQF_replicate 10 L v (by omega) (by omega)]
  have e1 : flt (num 60) nan = false := rfl
  have e2 : fle (fmul (num c) (num (99 / 100))) (num c) = true := by
    show decide (c * (99 / 100) ≤ c) = true
    exact decide_eq_true (by linarith)
  have e3 : flt (num 0) (num 0) = false := by decide
  have e4 : flt (num 70) nan = false := rfl
  have e5 : flt (fmul (num v) (num (6 / 5))) (num v) = false := by
    show decide (v * (6 / 5) < v) = false
    exact decide_eq_false (by linarith)
  rw [e1, e2, e3, e4, e5]
  simp only [Bool.false_and]
  decide

theorem flat_buy_zero (sqrtP : ℚ → ℚ) (c v : ℚ) (hsq : sqrtP 0 = 0) (hc : 0 < c) (hv : 0 ≤ v)
    (L : ℕ) (h1 : 1 ≤ L) (h19 : L ≤ 19) :
    buyScore ((List.range L).map (augmentAt sqrtP (flatBars 200 c v))) = 0 := by
  rw [buyScore]
  rw [ilocNeg_map_range _ L 1 (by omega) (by omega),
    ilocNeg_map_range _ L 2 (by omega) (by omega)]
  have hA1 := flat_row_base sqrtP 200 (L - 1) c v (by omega)
  have hB1 := flat_row_ind sqrtP 200 (L - 1) c v (by omega) (by omega)
  have hB2 := flat_row_ind sqrtP 200 (L - 2) c v (by omega) (by omega)
  have hD1 := flat_row_bb_nan sqrtP 200 (L - 1) c v (by omega)
  simp only [hA1, hB1, hB2, hD1]
  rw [flat_prefix_volumes sqrtP c v L (by omega)]
  have e1 : flt nan (num 40) = false := rfl
  have e2 : fle (num c) (fmul nan (num (101 / 100))) = false := rfl
  have e3 : flt (num 0) (num 0) = false := by decide
  have e4 : flt nan (num 30) = false := rfl
  by_cases h10 : 10 ≤ L
  · rw [rollingMeanQF_replicate 10 L v (by omega) h10]
    have e5 : flt (fmul (num v) (num (6 / 5))) (num v) = false := by
      show decide (v * (6 / 5) < v) = false
      exact decide_eq_false (by linarith)
    rw [e1, e2, e3, e4, e5]
    simp only [Bool.false_and]
    decide
  · rw [rollingMeanQF_replicate_nan 10 L v (by omega)]
    have e5 : flt (fmul nan (num (6 / 5))) (num v) = false := rfl
    rw [e1, e2, e3, e4, e5]
    simp only [Bool.false_and]
    decide

theorem flat_sell_zero (sqrtP : ℚ → ℚ) (c v : ℚ) (hsq : sqrtP 0 = 0) (hc : 0 < c) (hv : 0 ≤ v)
    (L : ℕ) (h1 : 1 ≤ L) (h19 : L ≤ 19) :
    sellScore ((List.range L).map (augmentAt sqrtP (flatBars 200 c v))) = 0 := by
  rw [sellScore]
  rw [ilocNeg_map_range _ L 1 (by omega) (by omega),
    ilocNeg_map_range _ L 2 (by omega) (by omega)]
  have hA1 := flat_row_base sqrtP 200 (L - 1) c v (by omega)
  have hB1 := flat_row_ind sqrtP 200 (L - 1) c v (by omega) (by omega)
  have hB2 := flat_row_ind sqrtP 200 (L - 2) c v (by omega) (by omega)
  have hD1 := flat_row_bb_nan sqrtP 200 (L - 1) c v (by omega)
  simp only [hA1, hB1, hB2, hD1]
  rw [flat_prefix_volumes sqrtP c v L (by omega)]
  have e1 : flt (num 60) nan = false := rfl
  have e2 : fle (fmul nan (num (99 / 100))) (num c) = false := rfl
  have e3 : flt (num 0) (num 0) = false := by decide
  have e4 : flt (num 70) nan = false := rfl
  by_cases h10 : 10 ≤ L
  · rw [rollingMeanQF_replicate 10 L v (by omega) h10]
    have e5 : flt (fmul (num v) (num (6 / 5))) (num v) = false := by
      show decide (v * (6 / 5) < v) = false
      exact decide_eq_false (by linarith)
    rw [e1, e2, e3, e4, e5]
    simp only [Bool.false_and]
    decide
  · rw [rollingMeanQF_replicate_nan 10 L v (by omega)]
    have e5 : flt (fmul nan (num (6 / 5))) (num v) = false := rfl
    rw [e1, e2, e3, e4, e5]
    simp only [Bool.false_and]
    decide

theorem flat_scalp_buy (sqrtP : ℚ → ℚ) (c v : ℚ) (hsq : sqrtP 0 = 0) (hc : 0 < c) (hv : 0 ≤ v)
    (L : ℕ) (h100 : 100 ≤ L) (h200 : L ≤ 200) :
    checkScalpingBuy ((List.range L).map (augmentAt sqrtP (flatBars 200 c v)))
      = (false, 0, []) := by
  rw [checkScalpingBuy]
  rw [if_neg (by simp only [List.length_map, List.length_range]; omega)]
  rw [ilocNeg_map_range _ L 1 (by omega) (by omega),
    ilocNeg_map_range _ L 2 (by omega) (by omega),
    ilocNeg_map_range _ L 3 (by omega) (by omega)]
  have hA1 := flat_row_base sqrtP 200 (L - 1) c v (by omega)
  have hA2 := flat_row_base sqrtP 200 (L - 2) c v (by omega)
  have hA3 := flat_row_base sqrtP 200 (L - 3) c v (by omega)
  have hB1 := flat_row_ind sqrtP 200 (L - 1) c v (by omega) (by omega)
  have hB2 := flat_row_ind sqrtP 200 (L - 2) c v (by omega) (by omega)
  have hB3 := flat_row_ind sqrtP 200 (L - 3) c v (by omega) (by omega)
  have hC1 := flat_row_bb sqrtP hsq 200 (L - 1) c v (by omega) (by omega)
  have hC2 := flat_row_bb sqrtP hsq 200 (L - 2) c v (by omega) (by omega)
  simp only [hA1, hA2, hA3, hB1, hB2, hB3, hC1, hC2]
  rw [flat_bbwidth_mean sqrtP hsq c v L (by omega) h200]
  rw [flat_prefix_volumes sqrtP c v L h200,
    rollingMeanQF_replicate 20 L v (by omega) (by omega)]
  rw [flat_prefix_lows sqrtP c v L h200, rollingMinSeries_replicate L c,
    flat_series_split L c (by omega)]
  obtain ⟨K, hK⟩ : ∃ K, L - 9 = K + 1 := ⟨L - 10, by omega⟩
  rw [hK, dedupFirst_flat K c]
  rw [show lastK 3 [nan, num c] = [nan, num c] from rfl]
  simp only [fsub_num_self, List.any_cons, List.any_nil]
  have pc : decide (c < c) = false := decide_eq_false (lt_irrefl c)
  have e1 : flt nan (num 35) = false := rfl
  have e2 : flt (num 0) (fmul (num 0) (num (7 / 10))) = false := by decide
  have e3 : flt (fmul (num v) (num (3 / 2))) (num v) = false := by
    show decide (v * (3 / 2) < v) = false
    exact decide_eq_false (by linarith)
  have e4 : flt (num 0) (num 0) = false := by decide
  have e6 : flt nan (num 20) = false := rfl
  simp only [pc, e1, e2, e3, e4, e6, fsub_num_self, Bool.false_and, Bool.and_false,
    Bool.false_or, Bool.or_false]
  decide

theorem flat_scalp_sell (sqrtP : ℚ → ℚ) (c v : ℚ) (hsq : sqrtP 0 = 0) (hc : 0 < c) (hv : 0 ≤ v)
    (L : ℕ) (h100 : 100 ≤ L) (h200 : L ≤ 200) :
    checkScalpingSell ((List.range L).map (augmentAt sqrtP (flatBars 200 c v)))
      = (false, 0, []) := by
  rw [checkScalpingSell]
  rw [if_neg (by simp only [List.length_map, List.length_range]; omega)]
  rw [ilocNeg_map_range _ L 1 (by omega) (by omega),
    ilocNeg_map_range _ L 2 (by omega) (by omega),
    ilocNeg_map_range _ L 3 (by omega) (by omega)]
  have hA1 := flat_row_base sqrtP 200 (L - 1) c v (by omega)
  have hA2 := flat_row_base sqrtP 200 (L - 2) c v (by omega)
  have hA3 := flat_row_base sqrtP 200 (L - 3) c v (by omega)
  have hB1 := flat_row_ind sqrtP 200 (L - 1) c v (by omega) (by omega)
  have hB2 := flat_row_ind sqrtP 200 (L - 2) c v (by omega) (by omega)
  have hB3 := flat_row_ind sqrtP 200 (L - 3) c v (by omega) (by omega)
  have hC1 := flat_row_bb sqrtP hsq 200 (L - 1) c v (by omega) (by omega)
  have hC2 := flat_row_bb sqrtP hsq 200 (L - 2) c v (by omega) (by omega)
  simp only [hA1, hA2, hA3, hB1, hB2, hB3, hC1, hC2]
  rw [flat_prefix_volumes sqrtP c v L h200,
    rollingMeanQF_replicate 20 L v (by omega) (by omega)]
  rw [flat_prefix_highs sqrtP c v L h200, rollingMaxSeries_replicate L c,
    flat_series_split L c (by omega)]
  obtain ⟨K, hK⟩ : ∃ K, L - 9 = K + 1 := ⟨L - 10, by omega⟩
  rw [hK, dedupFirst_flat K c]
  rw [show lastK 3 [nan, num c] = [nan, num c] from rfl]
  simp only [fsub_num_self, List.any_cons, List.any_nil]
  have pc : decide (c < c) = false := decide_eq_false (lt_irrefl c)
  have e1 : flt (num 65) nan = false := rfl
  have e3 : flt (fmul (num v) (num (3 / 2))) (num v) = false := by
    show decide (v * (3 / 2) < v) = false
    exact decide_eq_false (by linarith)
  have e4 : flt (num 0) (num 0) = false := by decide
  have e6 : flt (num 80) nan = false := rfl
  have e7 : flt (num c) (num c) = false := pc
  simp only [pc, e1, e3, e4, e6, e7, fsub_num_self, Bool.false_and, Bool.and_false,
    Bool.false_or, Bool.or_false]
  decide

theorem flatData_take (sqrtP : ℚ → ℚ) (c v : ℚ) (L : ℕ) (hL : L ≤ 200) :
    (flatData sqrtP 200 c v).take L
      = (List.range L).map (augmentAt sqrtP (flatBars 200 c v)) := by
  rw [flatData, addAllIndicators,
    show (flatBars 200 c v).length = 200 from by rw [flatBars, List.length_replicate],
    ← List.map_take, List.take_range, show L ⊓ 200 = L from by omega]

/-- A claim (C9), corrected.  On a flat 200-bar series (any positive price,
any nonnegative volume, any square-root routine with `sqrt 0 = 0`) no bar
ever qualifies a signal: the basic decision is `none` at every prefix and
the scalping checks return the no-signal triple on every evaluable window.
But the basic BUY and SELL scores are NOT `0` at every evaluated bar: once
the 20-bar Bollinger window fills, the bands collapse onto the price, both
band-proximity conditions fire, and both scores equal `1`. -/
theorem flat_series_C9 (sqrtP : ℚ → ℚ) (c v : ℚ) (hsq : sqrtP 0 = 0) (hc : 0 < c)
    (hv : 0 ≤ v) :
    (∀ L : ℕ, 1 ≤ L → L ≤ 200 →
        signalDecision ((flatData sqrtP 200 c v).take L) = none)
    ∧ (∀ L : ℕ, 20 ≤ L → L ≤ 200 →
        buyScore ((flatData sqrtP 200 c v).take L) = 1
        ∧ sellScore ((flatData sqrtP 200 c v).take L) = 1)
    ∧ (∀ L : ℕ, 100 ≤ L → L ≤ 200 →
        checkScalpingBuy ((flatData sqrtP 200 c v).take L) = (false, 0, [])
        ∧ checkScalpingSell ((flatData sqrtP 200 c v).take L) = (false, 0, [])) := by
  refine ⟨?_, ?_, ?_⟩
  · intro L hL1 hL2
    rw [flatData_take sqrtP c v L hL2, signalDecision]
    by_cases h20 : 20 ≤ L
    · rw [flat_buy_one sqrtP c v hsq hc hv L h20 hL2,
        flat_sell_one sqrtP c v hsq hc hv L h20 hL2]
      decide
    · rw [flat_buy_zero sqrtP c v hsq hc hv L hL1 (by omega),
        flat_sell_zero sqrtP c v hsq hc hv L hL1 (by omega)]
      decide
  · intro L h20 hL2
    rw [flatData_take sqrtP c v L hL2]
    exact ⟨flat_buy_one sqrtP c v hsq hc hv L h20 hL2,
      flat_sell_one sqrtP c v hsq hc hv L h20 hL2⟩
  · intro L h100 hL2
    rw [flatData_take sqrtP c v L hL2]
    exact ⟨flat_scalp_buy sqrtP c v hsq hc hv L h100 hL2,
      flat_scalp_sell sqrtP c v hsq hc hv L h100 hL2⟩

/-- Witness for the corrected C9 at price 100, volume 50, the zero
square-root routine and a 150-bar evaluation window. -/
theorem flat_series_C9_witness :
    ((fun _ : ℚ => (0 : ℚ)) 0 = 0 ∧ (0 : ℚ) < 100 ∧ (0 : ℚ) ≤ 50)
    ∧ signalDecision ((flatData (fun _ => 0) 200 100 50).take 150) = none
    ∧ buyScore ((flatData (fun _ => 0) 200 100 50).take 150) = 1
    ∧ checkScalpingBuy ((flatData (fun _ => 0) 200 100 50).take 150) = (false, 0, []) := by
  refine ⟨⟨rfl, by decide, by decide⟩, ?_, ?_, ?_⟩
  · exact (flat_series_C9 (fun _ => 0) 100 50 rfl (by decide) (by decide)).1 150
      (by decide) (by decide)
  · exact ((flat_series_C9 (fun _ => 0) 100 50 rfl (by decide) (by decide)).2.1 150
      (by decide) (by decide)).1
  · exact ((flat_series_C9 (fun _ => 0) 100 50 rfl (by decide) (by decide)).2.2 150
      (by decide) (by decide)).1

/-- Counterexample to C9 as stated: on the full flat 200-bar frame both
basic scores are `1`, not `0` — the collapsed Bollinger bands satisfy the
two band-proximity conditions on a flat series. -/
theorem flat_series_C9_counterexample :
    buyScore (flatData (fun _ => 0) 200 100 50) = 1
    ∧ sellScore (flatData (fun _ => 0) 200 100 50) = 1
    ∧ (1 : ℕ) ≠ 0 := by
  have h : flatData (fun _ : ℚ => (0 : ℚ)) 200 100 50
      = (List.range 200).map (augmentAt (fun _ => 0) (flatBars 200 100 50)) := by
    rw [flatData, addAllIndicators,
      show (flatBars 200 (100 : ℚ) (50 : ℚ)).length = 200 from by
        rw [flatBars, List.length_replicate]]
  rw [h]
  exact ⟨flat_buy_one (fun _ => 0) 100 50 rfl (by decide) (by decide) 200 (by decide)
      (by decide),
    flat_sell_one (fun _ => 0) 100 50 rfl (by decide) (by decide) 200 (by decide)
      (by decide),
    by decide⟩
